import Mathlib

/-!
# concord-win: global lifecycle manager and shutdown channel

A shallow embedding of `src/concord-once.c` and of the socket shims of
`core/compat.h`, followed by the properties proved about them.

The C code keeps its state in three file-scope variables (`init_counter`,
`shutdown_fds[2]`, and the mutex `lock`).  Every public function that touches
the counter runs between `pthread_mutex_lock` and `pthread_mutex_unlock`, so
the embedding is sequential: one call is one state transition and concurrent
callers are represented by the order in which the mutex serialises them.

Everything outside the two source files (libcurl, the worker pool, the
operating system's descriptor table) is an environment.  Its visible state is
part of `State`; the results of its calls are supplied by oracles, so that the
theorems quantify over every outcome the environment can produce.

`init_counter` is a C `int`.  Every assignment to it in the embedding goes
through `wrap32`, the 32-bit two's-complement result the usual compilers
produce for `init_counter++` and `--init_counter` (signed overflow is undefined
in C), so a counter that starts at 0 stays between `INT_MIN` and `INT_MAX`.
-/

namespace Concord

/-! ## Build-time configuration -/

/-- The preprocessor switches the two source files branch on. -/
structure Config where
  /-- Flag `_WIN32`: loopback-socket shims instead of `pipe`/`dup`. -/
  win32 : Bool
  /-- Flag `CCORD_SIGINTCATCH`: the interrupt bridge is compiled in. -/
  sigintcatch : Bool
  /-- Flag `FIOCLEX`: the POSIX duplicate is also marked close-on-exec. -/
  fioclex : Bool
deriving DecidableEq, Repr

/-- Modelled from the spec: the return codes of `ccord_global_init`, declared
in `error.h` (not among the source files); the spec lists them as
`code{OK, INIT_FAILED}`. -/
inductive CCORDcode where
  | CCORD_OK
  | CCORD_GLOBAL_INIT
deriving DecidableEq, Repr

/-- Largest value of a C `int`. -/
def INT_MAX : Int := 2147483647

/-- Smallest value of a C `int`. -/
def INT_MIN : Int := -2147483648

/-- The value a 32-bit `int` holds after an arithmetic result `x`:
two's-complement wrap-around into `INT_MIN .. INT_MAX`. -/
def wrap32 (x : Int) : Int :=
  (x + 2147483648) % 4294967296 - 2147483648

/-- Winsock sentinel for "no socket"; as an `int` it is `-1`, the value the
code stores in `shutdown_fds` for "no handle". -/
def INVALID_SOCKET : Int := -1

/-- Winsock return value of a failed call. -/
def SOCKET_ERROR : Int := -1

/-! ## Environment: descriptor table, channels, dependents, call log -/

/-- What an open handle is attached to.  A channel is identified by its index
in `State.bytes`; its `observe` end reads what its `notify` end writes. -/
inductive Role where
  | idle
  | observe (c : Nat)
  | notify (c : Nat)
deriving DecidableEq, Repr

/-- One row of the descriptor table. -/
structure Desc where
  h : Int
  role : Role
deriving DecidableEq, Repr

/-- Calls that `concord-once.c` issues to its collaborators, as logged in
`State.trace`. -/
inductive Ev where
  | signal_install
  | curl_global_init (rc : Int)
  | curl_global_cleanup
  | discord_worker_global_init (rc : Int)
  | discord_worker_global_cleanup
  | compat_socketpair (rc : Int)
  | set_nonblocking (h : Int) (rc : Int)
  | close (h : Int)
  | dup (src : Int) (res : Int)
  | set_cloexec (h : Int) (rc : Int)
deriving DecidableEq, Repr

/-- Program variables of `concord-once.c` together with the environment. -/
structure State where
  /-- Variable `static int init_counter`; written only through `wrap32`. -/
  init_counter : Int
  /-- Variable `static int shutdown_fds[2]`, as the pair `([0], [1])`. -/
  shutdown_fds : Int × Int
  /-- Open handles (file descriptors or sockets), newest first. -/
  tab : List Desc
  /-- Unread bytes of every channel created so far. -/
  bytes : List Nat
  /-- Whether libcurl's globals are set up. -/
  curl_live : Bool
  /-- Whether the worker pool's globals are set up. -/
  worker_live : Bool
  /-- Whether the interrupt handler of this file is installed. -/
  handler : Bool
  /-- Calls issued by `concord-once.c` so far, oldest first. -/
  trace : List Ev
deriving DecidableEq, Repr

/-- State at process start: the static initialisers of `concord-once.c` and an
environment in which nothing has been opened or set up. -/
def initial : State :=
  { init_counter := 0, shutdown_fds := (-1, -1), tab := [], bytes := [],
    curl_live := false, worker_live := false, handler := false, trace := [] }

/-- Append a call to the log. -/
def log (s : State) (e : Ev) : State :=
  { s with trace := s.trace ++ [e] }

/-- Whether handle `h` is open in descriptor table `t`. -/
def isOpen (t : List Desc) (h : Int) : Bool :=
  t.any (fun d => d.h == h)

/-- The attachment of handle `h` in table `t` (`idle` when it is not open). -/
def roleOf (t : List Desc) (h : Int) : Role :=
  match t.find? (fun d => d.h == h) with
  | some d => d.role
  | none => Role.idle

/-- A value the system can hand out as a new handle: not the sentinel and not
already open.  An oracle value that is not `fresh` stands for a failed call. -/
def fresh (t : List Desc) (p : Int) : Bool :=
  p != -1 && !isOpen t p

/-- Unread bytes of channel `n`. -/
def pending : List Nat → Nat → Nat
  | [], _ => 0
  | b :: _, 0 => b
  | _ :: bs, n + 1 => pending bs n

/-- Add one byte to channel `n`. -/
def bump : List Nat → Nat → List Nat
  | [], _ => []
  | b :: bs, 0 => (b + 1) :: bs
  | b :: bs, n + 1 => b :: bump bs n

/-- System call `socket()`: a new unconnected socket, or `INVALID_SOCKET`. -/
def sys_socket (s : State) (p : Int) : State × Int :=
  if fresh s.tab p then ({ s with tab := ⟨p, Role.idle⟩ :: s.tab }, p)
  else (s, INVALID_SOCKET)

/-- System call `accept()`.  The connection taken from the listener is the one
requested by `peer` (the only `connect` the caller issued): a new channel is
created whose observing end is the accepted socket and whose notifying end is
`peer`.  Only that direction of the connection is represented. -/
def sys_accept (s : State) (peer p : Int) : State × Int :=
  if fresh s.tab p then
    ({ s with
        tab := ⟨p, Role.observe s.bytes.length⟩ ::
          s.tab.map (fun d => if d.h == peer then ⟨d.h, Role.notify s.bytes.length⟩ else d),
        bytes := s.bytes ++ [0] }, p)
  else (s, INVALID_SOCKET)

/-- System call `closesocket()` / `close()`: drops the handle from the table;
an unknown handle is an error the callers ignore. -/
def closesocket (s : State) (h : Int) : State :=
  { s with tab := s.tab.eraseP (fun d => d.h == h) }

/-- System call `pipe()`: on success a new empty channel with read end `r` and
write end `w`; on failure nothing is created and the array is not written. -/
def sys_pipe (s : State) (fds : Int × Int) (r w : Int) : State × Int × (Int × Int) :=
  if fresh s.tab r && fresh s.tab w && r != w then
    ({ s with
        tab := ⟨r, Role.observe s.bytes.length⟩ :: ⟨w, Role.notify s.bytes.length⟩ :: s.tab,
        bytes := s.bytes ++ [0] }, 0, (r, w))
  else (s, -1, fds)

/-- System call `dup()` (and the `WSADuplicateSocketW`/`WSASocketW` pair): a
new handle attached to whatever `h` is attached to, or `-1`. -/
def sys_dup (s : State) (h p : Int) : State × Int :=
  if isOpen s.tab h && fresh s.tab p then ({ s with tab := ⟨p, roleOf s.tab h⟩ :: s.tab }, p)
  else (s, -1)

/-- System call `write()` / `send()` of one byte: it reaches the channel when
`h` is a notifying end and is an ignored error otherwise.  (A full buffer
would drop the byte; the channel is readable in that case anyway.) -/
def sys_write (s : State) (h : Int) : State :=
  match roleOf s.tab h with
  | Role.notify n => { s with bytes := bump s.bytes n }
  | _ => s

/-- System call `poll()` with `POLLIN` and timeout 0: whether `h` is an
observing end with unread bytes.  Nothing is consumed. -/
def sys_poll_in (s : State) (h : Int) : Bool :=
  match roleOf s.tab h with
  | Role.observe n => decide (0 < pending s.bytes n)
  | _ => false

/-- Library call `curl_global_init`, with return code `rc`. -/
def curl_global_init (s : State) (rc : Int) : State × Int :=
  (log { s with curl_live := s.curl_live || rc == 0 } (Ev.curl_global_init rc), rc)

/-- Library call `curl_global_cleanup`. -/
def curl_global_cleanup (s : State) : State :=
  log { s with curl_live := false } Ev.curl_global_cleanup

/-- Modelled from the spec: `discord_worker_global_init` (declared in
`discord-worker.h`, defined outside the two source files), a dependent
subsystem whose `init` either succeeds (`rc = 0`) or fails. -/
def discord_worker_global_init (s : State) (rc : Int) : State × Int :=
  (log { s with worker_live := s.worker_live || rc == 0 } (Ev.discord_worker_global_init rc), rc)

/-- Modelled from the spec: `discord_worker_global_cleanup` (declared in
`discord-worker.h`), the `cleanup` of the same dependent subsystem. -/
def discord_worker_global_cleanup (s : State) : State :=
  log { s with worker_live := false } Ev.discord_worker_global_cleanup

/-- Calls `signal(SIGINT, …)` / `SetConsoleCtrlHandler(…, TRUE)`. -/
def sys_signal_install (s : State) : State :=
  log { s with handler := true } Ev.signal_install

/-! ## `core/compat.h` -/

/-- Results of the system calls made by one `compat_socketpair` call.  The
first seven fields are consulted on `_WIN32`, the last two otherwise. -/
structure SockOracle where
  listener : Int
  bind_rc : Int
  getsockname_rc : Int
  listen_rc : Int
  client : Int
  connect_rc : Int
  server : Int
  pipe_r : Int
  pipe_w : Int
deriving DecidableEq, Repr

/-- The `fail:` block of the `_WIN32` `compat_socketpair`: every socket
obtained so far is closed, `fds` is not written, `-1` is returned. -/
def compat_socketpair_fail (s : State) (fds : Int × Int) (listener client server : Int) :
    State × Int × (Int × Int) :=
  let s := if listener != INVALID_SOCKET then closesocket s listener else s
  let s := if client != INVALID_SOCKET then closesocket s client else s
  let s := if server != INVALID_SOCKET then closesocket s server else s
  (s, -1, fds)

/-- The `_WIN32` version of `compat_socketpair` (`compat.h`, lines 48-91).
Returns the new state, the return code and the contents of `fds`. -/
def compat_socketpair_win32 (s : State) (fds : Int × Int) (o : SockOracle) :
    State × Int × (Int × Int) :=
  let client := INVALID_SOCKET
  let server := INVALID_SOCKET
  let r := sys_socket s o.listener
  let s := r.1
  let listener := r.2
  if listener == INVALID_SOCKET then
    compat_socketpair_fail s fds listener client server
  else if o.bind_rc == SOCKET_ERROR then
    compat_socketpair_fail s fds listener client server
  else if o.getsockname_rc == SOCKET_ERROR then
    compat_socketpair_fail s fds listener client server
  else if o.listen_rc == SOCKET_ERROR then
    compat_socketpair_fail s fds listener client server
  else
    let r := sys_socket s o.client
    let s := r.1
    let client := r.2
    if client == INVALID_SOCKET then
      compat_socketpair_fail s fds listener client server
    else if o.connect_rc == SOCKET_ERROR then
      compat_socketpair_fail s fds listener client server
    else
      let r := sys_accept s client o.server
      let s := r.1
      let server := r.2
      if server == INVALID_SOCKET then
        compat_socketpair_fail s fds listener client server
      else
        let s := closesocket s listener
        (s, 0, (server, client))

/-- The POSIX version of `compat_socketpair`: `return pipe(fds);`. -/
def compat_socketpair_posix (s : State) (fds : Int × Int) (o : SockOracle) :
    State × Int × (Int × Int) :=
  sys_pipe s fds o.pipe_r o.pipe_w

/-- Function `compat_socketpair` as selected by the preprocessor. -/
def compat_socketpair (cfg : Config) (s : State) (fds : Int × Int) (o : SockOracle) :
    State × Int × (Int × Int) :=
  if cfg.win32 then compat_socketpair_win32 s fds o else compat_socketpair_posix s fds o

/-- Function `compat_set_nonblocking` (`ioctlsocket(FIONBIO)` on `_WIN32`, the
`fcntl` pair otherwise): returns the code `rc` of the mode-setting call. -/
def compat_set_nonblocking (s : State) (fd : Int) (rc : Int) : State × Int :=
  (log s (Ev.set_nonblocking fd rc), rc)

/-- Macro `compat_close_socket` (`closesocket` / `close`) as called from
`concord-once.c`. -/
def compat_close_socket (s : State) (h : Int) : State :=
  log (closesocket s h) (Ev.close h)

/-! ## `src/concord-once.c` -/

/-- Results of the calls made by one `ccord_global_init` call that finds
`init_counter == 0`. -/
structure InitOracle where
  curl_rc : Int
  worker_rc : Int
  sp : SockOracle
  nb0 : Int
  nb1 : Int
deriving DecidableEq, Repr

/-- Results of the calls made by one `discord_dup_shutdown_fd` call. -/
structure DupOracle where
  /-- Return code of `WSADuplicateSocketW` (`_WIN32` only). -/
  wsadup_rc : Int
  /-- Handle returned by `WSASocketW` / `dup`. -/
  handle : Int
  /-- Return code of `ioctl(fd, FIOCLEX)` (POSIX with `FIOCLEX` only). -/
  cloexec_rc : Int
  /-- Return code of `compat_set_nonblocking` / `ioctl(fd, FIONBIO)`. -/
  nonblock_rc : Int
deriving DecidableEq, Repr

/-- Function `ccord_shutdown_async`: one byte written to `shutdown_fds[1]`. -/
def ccord_shutdown_async (s : State) : State :=
  sys_write s s.shutdown_fds.2

/-- Function `ccord_shutting_down`: `0` when `shutdown_fds[0]` is `-1`,
otherwise whether a zero-timeout poll reports `POLLIN`. -/
def ccord_shutting_down (s : State) : Bool :=
  if s.shutdown_fds.1 == -1 then false
  else sys_poll_in s s.shutdown_fds.1

/-- Label `fail_curl_init:` of `ccord_global_init` and the code after it. -/
def fail_curl_init (s : State) : State × CCORDcode :=
  let s := curl_global_cleanup s
  let s := { s with init_counter := 0 }
  (s, CCORDcode.CCORD_GLOBAL_INIT)

/-- Label `fail_discord_worker_init:`, falling through to `fail_curl_init:`. -/
def fail_discord_worker_init (s : State) : State × CCORDcode :=
  let s := discord_worker_global_cleanup s
  fail_curl_init s

/-- Label `fail_pipe_init:` (the loop over `shutdown_fds`, unrolled), falling
through to `fail_discord_worker_init:`. -/
def fail_pipe_init (s : State) : State × CCORDcode :=
  let s :=
    if s.shutdown_fds.1 != -1 then
      { compat_close_socket s s.shutdown_fds.1 with shutdown_fds := (-1, s.shutdown_fds.2) }
    else s
  let s :=
    if s.shutdown_fds.2 != -1 then
      { compat_close_socket s s.shutdown_fds.2 with shutdown_fds := (s.shutdown_fds.1, -1) }
    else s
  fail_discord_worker_init s

/-- Function `ccord_global_init` (lines 74-123), between lock and unlock. -/
def ccord_global_init (cfg : Config) (o : InitOracle) (s : State) : State × CCORDcode :=
  let old := s.init_counter
  let s := { s with init_counter := wrap32 (s.init_counter + 1) }
  if old == 0 then
    let s := if cfg.sigintcatch then sys_signal_install s else s
    let r := curl_global_init s o.curl_rc
    let s := r.1
    if r.2 != 0 then fail_curl_init s
    else
      let r := discord_worker_global_init s o.worker_rc
      let s := r.1
      if r.2 != 0 then fail_discord_worker_init s
      else
        let r := compat_socketpair cfg s s.shutdown_fds o.sp
        let s := log { r.1 with shutdown_fds := r.2.2 } (Ev.compat_socketpair r.2.1)
        if r.2.1 != 0 then fail_pipe_init s
        else
          let r := compat_set_nonblocking s s.shutdown_fds.1 o.nb0
          let s := r.1
          if r.2 != 0 then fail_pipe_init s
          else
            let r := compat_set_nonblocking s s.shutdown_fds.2 o.nb1
            let s := r.1
            if r.2 != 0 then fail_pipe_init s
            else (s, CCORDcode.CCORD_OK)
  else (s, CCORDcode.CCORD_OK)

/-- Function `ccord_global_cleanup` (lines 125-138), between lock and unlock;
the loop over `shutdown_fds` is unrolled. -/
def ccord_global_cleanup (s : State) : State :=
  if s.init_counter != 0 then
    let s := { s with init_counter := wrap32 (s.init_counter - 1) }
    if s.init_counter == 0 then
      let s := curl_global_cleanup s
      let s := discord_worker_global_cleanup s
      let s := { compat_close_socket s s.shutdown_fds.1 with
                  shutdown_fds := (-1, s.shutdown_fds.2) }
      let s := { compat_close_socket s s.shutdown_fds.2 with
                  shutdown_fds := (s.shutdown_fds.1, -1) }
      s
    else s
  else s

/-- Function `discord_dup_shutdown_fd` (lines 140-175), both branches. -/
def discord_dup_shutdown_fd (cfg : Config) (o : DupOracle) (s : State) : State × Int :=
  if s.shutdown_fds.1 == -1 then (s, -1)
  else if cfg.win32 then
    if o.wsadup_rc != 0 then (s, -1)
    else
      let r := sys_dup s s.shutdown_fds.1 o.handle
      let sock := r.2
      let s := log r.1 (Ev.dup s.shutdown_fds.1 sock)
      if sock == INVALID_SOCKET then (s, -1)
      else
        let q := compat_set_nonblocking s sock o.nonblock_rc
        let s := q.1
        if q.2 != 0 then (log (closesocket s sock) (Ev.close sock), -1)
        else (s, sock)
  else
    let r := sys_dup s s.shutdown_fds.1 o.handle
    let fd := r.2
    let s := log r.1 (Ev.dup s.shutdown_fds.1 fd)
    if fd != -1 then
      let s := if cfg.fioclex then log s (Ev.set_cloexec fd o.cloexec_rc) else s
      if cfg.fioclex && o.cloexec_rc != 0 then (log (closesocket s fd) (Ev.close fd), -1)
      else
        let s := log s (Ev.set_nonblocking fd o.nonblock_rc)
        if o.nonblock_rc != 0 then (log (closesocket s fd) (Ev.close fd), -1)
        else (s, fd)
    else (s, fd)

/-! ## Runs of public calls -/

/-- One call of a public function of `concord-once.c`, with the results the
environment gives to the calls it makes. -/
inductive Op where
  | global_init (o : InitOracle)
  | global_cleanup
  | shutdown_async
  | shutting_down
  | dup_shutdown_fd (o : DupOracle)
deriving DecidableEq, Repr

/-- State after one public call. -/
def step (cfg : Config) (s : State) : Op → State
  | Op.global_init o => (ccord_global_init cfg o s).1
  | Op.global_cleanup => ccord_global_cleanup s
  | Op.shutdown_async => ccord_shutdown_async s
  | Op.shutting_down => s
  | Op.dup_shutdown_fd o => (discord_dup_shutdown_fd cfg o s).1

/-- State after a sequence of public calls, in the order given. -/
def run (cfg : Config) (ops : List Op) (s : State) : State :=
  ops.foldl (step cfg) s

/-! ## Closed forms and the vocabulary of the properties -/

/-- Whether every system call of the `_WIN32` `compat_socketpair` succeeds when
the descriptor table is `t` and the calls' results are `o`: each of the three
sockets is a fresh handle in the table as it stands when it is requested, and
none of the other calls reports `SOCKET_ERROR`. -/
def win32_steps_ok (t : List Desc) (o : SockOracle) : Bool :=
  fresh t o.listener && o.bind_rc != SOCKET_ERROR && o.getsockname_rc != SOCKET_ERROR &&
    o.listen_rc != SOCKET_ERROR && fresh (⟨o.listener, Role.idle⟩ :: t) o.client &&
    o.connect_rc != SOCKET_ERROR &&
    fresh (⟨o.client, Role.idle⟩ :: ⟨o.listener, Role.idle⟩ :: t) o.server

/-- Whether the `pipe()` call of the POSIX `compat_socketpair` succeeds. -/
def posix_steps_ok (t : List Desc) (o : SockOracle) : Bool :=
  fresh t o.pipe_r && fresh t o.pipe_w && o.pipe_r != o.pipe_w

/-- Whether every system call of `compat_socketpair` succeeds. -/
def steps_ok (cfg : Config) (t : List Desc) (o : SockOracle) : Bool :=
  if cfg.win32 then win32_steps_ok t o else posix_steps_ok t o

/-- The handles `compat_socketpair` stores in `fds` when it succeeds. -/
def chanEnds (cfg : Config) (o : SockOracle) : Int × Int :=
  if cfg.win32 then (o.server, o.client) else (o.pipe_r, o.pipe_w)

/-- State in which a new channel with ends `a` (observe) and `b` (notify) has
been added to `s`. -/
def withChannel (s : State) (a b : Int) : State :=
  { s with
      tab := ⟨a, Role.observe s.bytes.length⟩ :: ⟨b, Role.notify s.bytes.length⟩ :: s.tab,
      bytes := s.bytes ++ [0] }

/-- The construction steps of `ccord_global_init` that can fail. -/
inductive Stage where
  | curl_init
  | worker_init
  | channel
  | nonblocking0
  | nonblocking1
deriving DecidableEq, Repr

/-- The first construction step that fails when `ccord_global_init` runs with
descriptor table `t` and results `o`, if any. -/
def firstFailure (cfg : Config) (t : List Desc) (o : InitOracle) : Option Stage :=
  if o.curl_rc != 0 then some Stage.curl_init
  else if o.worker_rc != 0 then some Stage.worker_init
  else if !steps_ok cfg t o.sp then some Stage.channel
  else if o.nb0 != 0 then some Stage.nonblocking0
  else if o.nb1 != 0 then some Stage.nonblocking1
  else none

/-- The log entry of the handler installation, when it is compiled in. -/
def sigTrace (cfg : Config) : List Ev :=
  if cfg.sigintcatch then [Ev.signal_install] else []

/-- The calls of a constructing `ccord_global_init` in which every step
succeeds, after the optional handler installation. -/
def constructTrace (cfg : Config) (o : InitOracle) : List Ev :=
  [Ev.curl_global_init 0, Ev.discord_worker_global_init 0, Ev.compat_socketpair 0,
   Ev.set_nonblocking (chanEnds cfg o.sp).1 0, Ev.set_nonblocking (chanEnds cfg o.sp).2 0]

/-- State after a constructing `ccord_global_init` in which every step
succeeds. -/
def constructed (cfg : Config) (o : InitOracle) (s : State) : State :=
  { init_counter := 1
    shutdown_fds := chanEnds cfg o.sp
    tab := ⟨(chanEnds cfg o.sp).1, Role.observe s.bytes.length⟩ ::
             ⟨(chanEnds cfg o.sp).2, Role.notify s.bytes.length⟩ :: s.tab
    bytes := s.bytes ++ [0]
    curl_live := true
    worker_live := true
    handler := cfg.sigintcatch || s.handler
    trace := s.trace ++ sigTrace cfg ++ constructTrace cfg o }

/-- The calls of a `ccord_global_init` whose first failing step is `k`, after
the optional handler installation. -/
def failTrace (cfg : Config) (o : InitOracle) : Stage → List Ev
  | Stage.curl_init =>
      [Ev.curl_global_init o.curl_rc, Ev.curl_global_cleanup]
  | Stage.worker_init =>
      [Ev.curl_global_init 0, Ev.discord_worker_global_init o.worker_rc,
       Ev.discord_worker_global_cleanup, Ev.curl_global_cleanup]
  | Stage.channel =>
      [Ev.curl_global_init 0, Ev.discord_worker_global_init 0, Ev.compat_socketpair (-1),
       Ev.discord_worker_global_cleanup, Ev.curl_global_cleanup]
  | Stage.nonblocking0 =>
      [Ev.curl_global_init 0, Ev.discord_worker_global_init 0, Ev.compat_socketpair 0,
       Ev.set_nonblocking (chanEnds cfg o.sp).1 o.nb0,
       Ev.close (chanEnds cfg o.sp).1, Ev.close (chanEnds cfg o.sp).2,
       Ev.discord_worker_global_cleanup, Ev.curl_global_cleanup]
  | Stage.nonblocking1 =>
      [Ev.curl_global_init 0, Ev.discord_worker_global_init 0, Ev.compat_socketpair 0,
       Ev.set_nonblocking (chanEnds cfg o.sp).1 0,
       Ev.set_nonblocking (chanEnds cfg o.sp).2 o.nb1,
       Ev.close (chanEnds cfg o.sp).1, Ev.close (chanEnds cfg o.sp).2,
       Ev.discord_worker_global_cleanup, Ev.curl_global_cleanup]

/-- Whether the channel had been created when step `k` failed. -/
def Stage.afterChannel : Stage → Bool
  | Stage.nonblocking0 => true
  | Stage.nonblocking1 => true
  | _ => false

/-- State after a `ccord_global_init` that found no handles stored in
`shutdown_fds` and whose first failing step is `k`. -/
def rolledBack (cfg : Config) (o : InitOracle) (s : State) (k : Stage) : State :=
  { init_counter := 0
    shutdown_fds := (-1, -1)
    tab := s.tab
    bytes := if k.afterChannel then s.bytes ++ [0] else s.bytes
    curl_live := false
    worker_live := if k = Stage.curl_init then s.worker_live else false
    handler := cfg.sigintcatch || s.handler
    trace := s.trace ++ sigTrace cfg ++ failTrace cfg o k }

/-- State after the `ccord_global_cleanup` call that finds `init_counter == 1`. -/
def tornDown (s : State) : State :=
  { init_counter := 0
    shutdown_fds := (-1, -1)
    tab := (s.tab.eraseP (fun d => d.h == s.shutdown_fds.1)).eraseP
             (fun d => d.h == s.shutdown_fds.2)
    bytes := s.bytes
    curl_live := false
    worker_live := false
    handler := s.handler
    trace := s.trace ++ [Ev.curl_global_cleanup, Ev.discord_worker_global_cleanup,
                         Ev.close s.shutdown_fds.1, Ev.close s.shutdown_fds.2] }

/-- All fields of `r` other than the descriptor table and the log are those of
`s`. -/
def Frame (s r : State) : Prop :=
  r = { s with tab := r.tab, trace := r.trace }

/-- The calls logged between state `s` and the later state `r`. -/
def callsSince (s r : State) : List Ev :=
  r.trace.drop s.trace.length

/-- Whether `discord_dup_shutdown_fd` obtains a duplicate handle: on `_WIN32`
`WSADuplicateSocketW` returns 0, and the duplicating call (`WSASocketW` /
`dup`) returns a handle. -/
def dup_created (cfg : Config) (s : State) (o : DupOracle) : Bool :=
  (!cfg.win32 || o.wsadup_rc == 0) && (sys_dup s s.shutdown_fds.1 o.handle).2 != -1

/-- Whether every system call of `discord_dup_shutdown_fd` succeeds: a
duplicate is obtained, `ioctl(FIOCLEX)` returns 0 where it is compiled in (POSIX
with `FIOCLEX`), and the non-blocking mode-setting call returns 0. -/
def dup_steps_ok (cfg : Config) (s : State) (o : DupOracle) : Bool :=
  dup_created cfg s o && (cfg.win32 || !cfg.fioclex || o.cloexec_rc == 0) &&
    o.nonblock_rc == 0

/-- Handle `h` is usable: it is not the sentinel `-1` and it is open. -/
def validOpen (s : State) (h : Int) : Bool :=
  h != -1 && isOpen s.tab h

/-- The manager invariant: the counter is not negative; the two shutdown
handles are both valid or both `-1`; they are valid exactly when the counter
is positive; and each dependent subsystem is set up exactly when the counter is
positive. -/
def Inv (s : State) : Prop :=
  0 ≤ s.init_counter ∧
  ((validOpen s s.shutdown_fds.1 = true ∧ validOpen s s.shutdown_fds.2 = true) ∨
    (s.shutdown_fds.1 = -1 ∧ s.shutdown_fds.2 = -1)) ∧
  ((validOpen s s.shutdown_fds.1 = true ∧ validOpen s s.shutdown_fds.2 = true) ↔
    0 < s.init_counter) ∧
  (s.curl_live = true ↔ 0 < s.init_counter) ∧
  (s.worker_live = true ↔ 0 < s.init_counter)

instance (s : State) : Decidable (Inv s) := by
  unfold Inv; infer_instance

/-- State and return codes of successive `ccord_global_init` calls, one per
oracle, in the order given. -/
def init_calls (cfg : Config) : List InitOracle → State → State × List CCORDcode
  | [], s => (s, [])
  | o :: os, s =>
    let r := ccord_global_init cfg o s
    let q := init_calls cfg os r.1
    (q.1, r.2 :: q.2)

/-- Log entries that are calls of `curl_global_init`. -/
def Ev.isCurlInit : Ev → Bool
  | Ev.curl_global_init _ => true
  | _ => false

/-- Log entries that are calls of `discord_worker_global_init`. -/
def Ev.isWorkerInit : Ev → Bool
  | Ev.discord_worker_global_init _ => true
  | _ => false

/-- Log entries that are calls of `compat_socketpair`. -/
def Ev.isSocketpair : Ev → Bool
  | Ev.compat_socketpair _ => true
  | _ => false

/-- An oracle under which every construction step succeeds from the initial
state, on either platform. -/
def goodOracle : InitOracle :=
  { curl_rc := 0, worker_rc := 0,
    sp := { listener := 3, bind_rc := 0, getsockname_rc := 0, listen_rc := 0, client := 4,
            connect_rc := 0, server := 5, pipe_r := 3, pipe_w := 4 },
    nb0 := 0, nb1 := 0 }

/-- POSIX build without the interrupt bridge. -/
def posixCfg : Config := { win32 := false, sigintcatch := false, fioclex := true }

/-- Windows build with the interrupt bridge. -/
def win32Cfg : Config := { win32 := true, sigintcatch := true, fioclex := false }

/-- Calls of `ccord_global_init`. -/
def Op.isInit : Op → Bool
  | Op.global_init _ => true
  | _ => false

/-- Calls of `ccord_global_cleanup`. -/
def Op.isCleanup : Op → Bool
  | Op.global_cleanup => true
  | _ => false

/-- Number of `ccord_global_init` calls minus number of `ccord_global_cleanup`
calls in a sequence of calls. -/
def bal (l : List Op) : Int :=
  (l.countP Op.isInit : Int) - (l.countP Op.isCleanup : Int)

/-- State `s` with `init_counter` set to `c`. -/
def withCounter (s : State) (c : Int) : State :=
  { s with init_counter := c }

/-- An oracle under which the worker pool (the second dependent) fails. -/
def workerFails : InitOracle := { goodOracle with worker_rc := 1 }

/-- The state reached together with the answer to "has `ccord_shutdown_async`
been called since the channel was most recently armed?".  The channel is armed
by the call that takes `init_counter` from 0 to a positive value; while the
counter is 0 there is no channel and the answer is no. -/
def track (cfg : Config) (p : State × Bool) (op : Op) : State × Bool :=
  let r := step cfg p.1 op
  (r,
    if r.init_counter ≤ 0 then false
    else if p.1.init_counter ≤ 0 then false
    else match op with
      | Op.shutdown_async => true
      | _ => p.2)

/-- No `ccord_global_init` call of the run is made while `init_counter` is
`INT_MAX`, that is, the C `int` counter never overflows. -/
def NoOverflow (cfg : Config) (ops : List Op) : Prop :=
  ∀ k o, ops[k]? = some (Op.global_init o) →
    (run cfg (ops.take k) initial).init_counter ≠ INT_MAX

/-- Calls that only signal or observe the shutdown channel. -/
def Op.isSignalOrCheck : Op → Bool
  | Op.shutdown_async => true
  | Op.shutting_down => true
  | _ => false

/-- What `ccord_shutting_down` rests on: when unarmed the handles are `-1`;
when armed they are the two ends of one existing channel, which holds unread
bytes exactly when `sig` says a signal was sent since arming. -/
def SigInv (s : State) (sig : Bool) : Prop :=
  (s.init_counter = 0 ∧ s.shutdown_fds = (-1, -1) ∧ sig = false) ∨
  (0 < s.init_counter ∧ s.shutdown_fds.1 ≠ -1 ∧
    ∃ n, n < s.bytes.length ∧ roleOf s.tab s.shutdown_fds.1 = Role.observe n ∧
      roleOf s.tab s.shutdown_fds.2 = Role.notify n ∧
      (0 < pending s.bytes n ↔ sig = true))

/-- An oracle under which `curl_global_init` (the first dependent) fails. -/
def curlFails : InitOracle := { goodOracle with curl_rc := 1 }

/-! ## Arithmetic of the C `int` counter -/

theorem wrap32_id (x : Int) (h1 : -2147483648 ≤ x) (h2 : x ≤ 2147483647) : wrap32 x = x := by
  unfold wrap32; omega

theorem wrap32_range (x : Int) : INT_MIN ≤ wrap32 x ∧ wrap32 x ≤ INT_MAX := by
  unfold wrap32 INT_MIN INT_MAX; omega

theorem wrap32_add (x y : Int) : wrap32 (wrap32 x + y) = wrap32 (x + y) := by
  unfold wrap32; omega

theorem wrap32_sub (x y : Int) : wrap32 (wrap32 x - y) = wrap32 (x - y) := by
  unfold wrap32; omega

theorem wrap32_one : wrap32 (0 + 1) = 1 := by decide

theorem wrap32_one_lit : wrap32 1 = 1 := by decide

theorem wrap32_zero_lit : wrap32 0 = 0 := by decide

theorem wrap32_zero : wrap32 (1 - 1) = 0 := by decide

theorem wrap32_max : wrap32 (2147483647 + 1) = -2147483648 := by decide

/-! ## The channel constructors -/

theorem map_role_of_not_open (t : List Desc) (peer : Int) (r : Role)
    (h : isOpen t peer = false) :
    t.map (fun d => if d.h == peer then (⟨d.h, r⟩ : Desc) else d) = t := by
  induction t with
  | nil => rfl
  | cons d t ih =>
    simp only [isOpen, List.any_cons, Bool.or_eq_false_iff] at h ih
    simp only [List.map_cons, h.1, ih h.2]
    simp

theorem eraseP_hit (h : Int) (r : Role) (t : List Desc) :
    (⟨h, r⟩ :: t).eraseP (fun d => d.h == h) = t := by
  simp [List.eraseP_cons]

theorem eraseP_skip (h k : Int) (r : Role) (t : List Desc) (e : k ≠ h) :
    (⟨k, r⟩ :: t).eraseP (fun d => d.h == h) = ⟨k, r⟩ :: t.eraseP (fun d => d.h == h) := by
  simp [List.eraseP_cons, e]

theorem compat_socketpair_win32_eq (s : State) (fds : Int × Int) (o : SockOracle) :
    compat_socketpair_win32 s fds o =
      if win32_steps_ok s.tab o then (withChannel s o.server o.client, 0, (o.server, o.client))
      else (s, -1, fds) := by
  unfold compat_socketpair_win32 win32_steps_ok
  by_cases h1 : fresh s.tab o.listener = true
  · have hL : o.listener ≠ -1 ∧ isOpen s.tab o.listener = false := by
      simpa [fresh] using h1
    by_cases hb : o.bind_rc = -1
    · simp [sys_socket, h1, compat_socketpair_fail, INVALID_SOCKET, SOCKET_ERROR, hb, hL.1,
        closesocket]
    by_cases hg : o.getsockname_rc = -1
    · simp [sys_socket, h1, compat_socketpair_fail, INVALID_SOCKET, SOCKET_ERROR, hb, hg, hL.1,
        closesocket]
    by_cases hl : o.listen_rc = -1
    · simp [sys_socket, h1, compat_socketpair_fail, INVALID_SOCKET, SOCKET_ERROR, hb, hg, hl, hL.1,
        closesocket]
    by_cases h2 : fresh (⟨o.listener, Role.idle⟩ :: s.tab) o.client = true
    · have hC : o.client ≠ -1 ∧ o.listener ≠ o.client ∧ isOpen s.tab o.client = false := by
        simpa [fresh, isOpen] using h2
      by_cases hc : o.connect_rc = -1
      · simp [sys_socket, h1, h2, compat_socketpair_fail, INVALID_SOCKET, SOCKET_ERROR, hb, hg,
          hl, hc, hL.1, hC.1, hC.2.1, closesocket, eraseP_hit, eraseP_skip, Ne.symm hC.2.1]
      by_cases h3 : fresh (⟨o.client, Role.idle⟩ :: ⟨o.listener, Role.idle⟩ :: s.tab) o.server = true
      · have hS : o.server ≠ -1 ∧ o.client ≠ o.server ∧ o.listener ≠ o.server ∧
            isOpen s.tab o.server = false := by
          simpa [fresh, isOpen, and_assoc] using h3
        have hm := map_role_of_not_open s.tab o.client (Role.notify s.bytes.length) hC.2.2
        simp [sys_socket, sys_accept, h1, h2, h3, INVALID_SOCKET, SOCKET_ERROR, hb, hg,
          hl, hc, hL.1, hC.1, hC.2.1, hS.1, hS.2.1, hS.2.2.1, closesocket, withChannel,
          eraseP_hit, eraseP_skip, Ne.symm hC.2.1, Ne.symm hS.2.1, Ne.symm hS.2.2.1]
        simpa using hm
      · simp [sys_socket, sys_accept, h1, h2, h3, compat_socketpair_fail, INVALID_SOCKET,
          SOCKET_ERROR, hb, hg, hl, hc, hL.1, hC.1, hC.2.1, closesocket, eraseP_hit, eraseP_skip,
          Ne.symm hC.2.1]
    · simp [sys_socket, h1, h2, compat_socketpair_fail, INVALID_SOCKET, SOCKET_ERROR, hb, hg, hl,
        hL.1, closesocket]
  · simp [sys_socket, h1, compat_socketpair_fail, INVALID_SOCKET]

theorem compat_socketpair_eq (cfg : Config) (s : State) (fds : Int × Int) (o : SockOracle) :
    compat_socketpair cfg s fds o =
      if steps_ok cfg s.tab o then
        (withChannel s (chanEnds cfg o).1 (chanEnds cfg o).2, 0, chanEnds cfg o)
      else (s, -1, fds) := by
  unfold compat_socketpair steps_ok chanEnds
  by_cases hw : cfg.win32 = true
  · simp [hw, compat_socketpair_win32_eq]
  · simp only [hw, if_false, compat_socketpair_posix, sys_pipe, posix_steps_ok]
    by_cases hp : (fresh s.tab o.pipe_r && fresh s.tab o.pipe_w && o.pipe_r != o.pipe_w) = true
    · simp [hp, withChannel]
    · simp [hp]

/-- The two handles of a successfully created channel are usable, distinct and
were not open before. -/
theorem steps_ok_fresh (cfg : Config) (t : List Desc) (o : SockOracle)
    (h : steps_ok cfg t o = true) :
    (chanEnds cfg o).1 ≠ -1 ∧ (chanEnds cfg o).2 ≠ -1 ∧ (chanEnds cfg o).1 ≠ (chanEnds cfg o).2 ∧
      isOpen t (chanEnds cfg o).1 = false ∧ isOpen t (chanEnds cfg o).2 = false := by
  unfold steps_ok chanEnds at *
  by_cases hw : cfg.win32 = true
  · simp only [hw, if_true, win32_steps_ok, fresh, isOpen, List.any_cons] at h ⊢
    simp at h ⊢
    obtain ⟨⟨⟨⟨⟨⟨_, _⟩, _⟩, _⟩, ⟨hc, hc1, hc2⟩⟩, _⟩, ⟨hs, hs1, hs2, hs3⟩⟩ := h
    exact ⟨hs, hc, fun e => hs1 e.symm, hs3, hc2⟩
  · simp only [hw, if_false, posix_steps_ok, fresh, isOpen] at h ⊢
    simp at h ⊢
    obtain ⟨⟨⟨hr, hr1⟩, ⟨hw1, hw2⟩⟩, hne⟩ := h
    exact ⟨hr, hw1, hne, hr1, hw2⟩

/-! ## Closed forms of `ccord_global_init` -/

theorem init_again (cfg : Config) (o : InitOracle) (s : State) (h : s.init_counter ≠ 0) :
    ccord_global_init cfg o s =
      ({ s with init_counter := wrap32 (s.init_counter + 1) }, CCORDcode.CCORD_OK) := by
  simp [ccord_global_init, h]

theorem init_first_ok (cfg : Config) (o : InitOracle) (s : State) (h : s.init_counter = 0)
    (hok : firstFailure cfg s.tab o = none) :
    ccord_global_init cfg o s = (constructed cfg o s, CCORDcode.CCORD_OK) := by
  unfold firstFailure at hok
  have h1 : o.curl_rc = 0 := by
    by_contra hc; simp [hc] at hok
  have h2 : o.worker_rc = 0 := by
    by_contra hc; simp [h1, hc] at hok
  have h3 : steps_ok cfg s.tab o.sp = true := by
    by_contra hc; simp [h1, h2, hc] at hok
  have h4 : o.nb0 = 0 := by
    by_contra hc; simp [h1, h2, h3, hc] at hok
  have h5 : o.nb1 = 0 := by
    by_contra hc; simp [h1, h2, h3, h4, hc] at hok
  have hf := steps_ok_fresh cfg s.tab o.sp h3
  by_cases hs : cfg.sigintcatch = true
  · simp [ccord_global_init, h, hs, wrap32_one_lit, h1, h2, h3, h4, h5, curl_global_init,
      discord_worker_global_init, compat_socketpair_eq, compat_set_nonblocking, log,
      sys_signal_install, constructed, withChannel, sigTrace, constructTrace]
  · simp [ccord_global_init, h, hs, wrap32_one_lit, h1, h2, h3, h4, h5, curl_global_init,
      discord_worker_global_init, compat_socketpair_eq, compat_set_nonblocking, log,
      sys_signal_install, constructed, withChannel, sigTrace, constructTrace]

theorem init_first_fail (cfg : Config) (o : InitOracle) (s : State) (k : Stage)
    (h : s.init_counter = 0) (hfds : s.shutdown_fds = (-1, -1))
    (hk : firstFailure cfg s.tab o = some k) :
    ccord_global_init cfg o s = (rolledBack cfg o s k, CCORDcode.CCORD_GLOBAL_INIT) := by
  unfold firstFailure at hk
  by_cases h1 : o.curl_rc = 0
  swap
  · simp only [bne_iff_ne, ne_eq, h1, not_false_eq_true, if_true, Option.some.injEq] at hk
    subst hk
    by_cases hs : cfg.sigintcatch = true <;>
    simp [ccord_global_init, h, hs, wrap32_one_lit, sys_signal_install, sigTrace, h1, curl_global_init, fail_curl_init, curl_global_cleanup,
      log, rolledBack, failTrace, Stage.afterChannel, hfds]
  by_cases h2 : o.worker_rc = 0
  swap
  · simp only [bne_iff_ne, ne_eq, h1, h2, not_true_eq_false, not_false_eq_true, if_true, if_false,
      Option.some.injEq] at hk
    subst hk
    by_cases hs : cfg.sigintcatch = true <;>
    simp [ccord_global_init, h, hs, wrap32_one_lit, sys_signal_install, sigTrace, h1, h2, curl_global_init, discord_worker_global_init,
      fail_curl_init, fail_discord_worker_init, curl_global_cleanup,
      discord_worker_global_cleanup, log, rolledBack, failTrace, Stage.afterChannel, hfds]
  by_cases h3 : steps_ok cfg s.tab o.sp = true
  swap
  · have h3f : steps_ok cfg s.tab o.sp = false := by simpa using h3
    simp [h1, h2, h3f] at hk
    subst hk
    by_cases hs : cfg.sigintcatch = true <;>
    simp [ccord_global_init, h, hs, wrap32_one_lit, sys_signal_install, sigTrace, h1, h2, h3f, curl_global_init,
      discord_worker_global_init, compat_socketpair_eq, fail_pipe_init, fail_curl_init, fail_discord_worker_init,
      curl_global_cleanup, discord_worker_global_cleanup, log, rolledBack, failTrace,
      Stage.afterChannel, hfds]
  have hf := steps_ok_fresh cfg s.tab o.sp h3
  by_cases h4 : o.nb0 = 0
  swap
  · simp [h1, h2, h3, h4] at hk
    subst hk
    by_cases hs : cfg.sigintcatch = true <;>
    simp [ccord_global_init, h, hs, wrap32_one_lit, sys_signal_install, sigTrace, h1, h2, h3, h4, curl_global_init,
      discord_worker_global_init, compat_socketpair_eq, compat_set_nonblocking, fail_pipe_init,
      fail_curl_init, fail_discord_worker_init, compat_close_socket, closesocket,
      curl_global_cleanup, discord_worker_global_cleanup, log, rolledBack, failTrace,
      Stage.afterChannel, hfds, withChannel, hf.1, hf.2.1, eraseP_hit]
  by_cases h5 : o.nb1 = 0
  swap
  · simp [h1, h2, h3, h4, h5] at hk
    subst hk
    by_cases hs : cfg.sigintcatch = true <;>
    simp [ccord_global_init, h, hs, wrap32_one_lit, sys_signal_install, sigTrace, h1, h2, h3, h4, h5, curl_global_init,
      discord_worker_global_init, compat_socketpair_eq, compat_set_nonblocking, fail_pipe_init,
      fail_curl_init, fail_discord_worker_init, compat_close_socket, closesocket,
      curl_global_cleanup, discord_worker_global_cleanup, log, rolledBack, failTrace,
      Stage.afterChannel, hfds, withChannel, hf.1, hf.2.1, eraseP_hit]
  simp [h1, h2, h3, h4, h5] at hk

/-! ## Closed forms of `ccord_global_cleanup` and `discord_dup_shutdown_fd` -/

theorem cleanup_zero (s : State) (h : s.init_counter = 0) : ccord_global_cleanup s = s := by
  simp [ccord_global_cleanup, h]

theorem cleanup_many (s : State) (h0 : s.init_counter ≠ 0)
    (h1 : wrap32 (s.init_counter - 1) ≠ 0) :
    ccord_global_cleanup s = { s with init_counter := wrap32 (s.init_counter - 1) } := by
  simp [ccord_global_cleanup, h0, h1]

theorem cleanup_last_wrap (s : State) (h0 : s.init_counter ≠ 0)
    (h1 : wrap32 (s.init_counter - 1) = 0) :
    ccord_global_cleanup s = tornDown s := by
  simp [ccord_global_cleanup, h0, h1, tornDown, curl_global_cleanup,
    discord_worker_global_cleanup, compat_close_socket, closesocket, log]

theorem cleanup_last (s : State) (h : s.init_counter = 1) :
    ccord_global_cleanup s = tornDown s :=
  cleanup_last_wrap s (by rw [h]; decide) (by rw [h]; decide)

theorem dup_unarmed (cfg : Config) (o : DupOracle) (s : State) (h0 : s.shutdown_fds.1 = -1) :
    discord_dup_shutdown_fd cfg o s = (s, -1) := by
  simp [discord_dup_shutdown_fd, h0]

theorem dup_cases (cfg : Config) (o : DupOracle) (s : State) (h0 : s.shutdown_fds.1 ≠ -1) :
    (dup_steps_ok cfg s o = false ∧
      (discord_dup_shutdown_fd cfg o s).2 = -1 ∧
      (discord_dup_shutdown_fd cfg o s).1.tab = s.tab ∧
      (dup_created cfg s o = true →
        Ev.close o.handle ∈ callsSince s (discord_dup_shutdown_fd cfg o s).1) ∧
      Frame s (discord_dup_shutdown_fd cfg o s).1) ∨
    (dup_steps_ok cfg s o = true ∧
      (discord_dup_shutdown_fd cfg o s).2 = o.handle ∧
      fresh s.tab o.handle = true ∧
      isOpen s.tab s.shutdown_fds.1 = true ∧
      (discord_dup_shutdown_fd cfg o s).1.tab =
        ⟨o.handle, roleOf s.tab s.shutdown_fds.1⟩ :: s.tab ∧
      Ev.set_nonblocking o.handle 0 ∈ callsSince s (discord_dup_shutdown_fd cfg o s).1 ∧
      (∀ h, Ev.close h ∉ callsSince s (discord_dup_shutdown_fd cfg o s).1) ∧
      Frame s (discord_dup_shutdown_fd cfg o s).1) := by
  by_cases hd : (isOpen s.tab s.shutdown_fds.1 && fresh s.tab o.handle) = true
  swap
  · left
    by_cases hw : cfg.win32 = true
    · by_cases hr : o.wsadup_rc = 0
      · simp [discord_dup_shutdown_fd, dup_steps_ok, dup_created, callsSince, h0, hw, hr, sys_dup, hd, log,
          INVALID_SOCKET, Frame]
      · simp [discord_dup_shutdown_fd, dup_steps_ok, dup_created, callsSince, h0, hw, hr, Frame]
    · simp [discord_dup_shutdown_fd, dup_steps_ok, dup_created, callsSince, h0, hw, sys_dup, hd, log, Frame]
  have hd2 : isOpen s.tab s.shutdown_fds.1 = true ∧ fresh s.tab o.handle = true := by
    simpa using hd
  have hne : o.handle ≠ -1 := by
    have := hd2.2; simp [fresh] at this; exact this.1
  by_cases hw : cfg.win32 = true
  · by_cases hr : o.wsadup_rc = 0
    · by_cases hn : o.nonblock_rc = 0
      · right
        simp [discord_dup_shutdown_fd, dup_steps_ok, dup_created, callsSince, h0, hw, hr, hn, sys_dup, hd,
          log, INVALID_SOCKET, Frame, compat_set_nonblocking, hne, hd2]
      · left
        simp [discord_dup_shutdown_fd, dup_steps_ok, dup_created, callsSince, h0, hw, hr, hn, sys_dup, hd,
          log, INVALID_SOCKET, Frame, compat_set_nonblocking, hne, closesocket, eraseP_hit]
    · left
      simp [discord_dup_shutdown_fd, dup_steps_ok, dup_created, callsSince, h0, hw, hr, Frame]
  · by_cases hf : cfg.fioclex = true
    · by_cases hc : o.cloexec_rc = 0
      · by_cases hn : o.nonblock_rc = 0
        · right
          simp [discord_dup_shutdown_fd, dup_steps_ok, dup_created, callsSince, h0, hw, hf, hc, hn, sys_dup,
            hd, log, Frame, hne, hd2]
        · left
          simp [discord_dup_shutdown_fd, dup_steps_ok, dup_created, callsSince, h0, hw, hf, hc, hn, sys_dup,
            hd, log, Frame, hne, closesocket, eraseP_hit]
      · left
        simp [discord_dup_shutdown_fd, dup_steps_ok, dup_created, callsSince, h0, hw, hf, hc, sys_dup, hd,
          log, Frame, hne, closesocket, eraseP_hit]
    · by_cases hn : o.nonblock_rc = 0
      · right
        simp [discord_dup_shutdown_fd, dup_steps_ok, dup_created, callsSince, h0, hw, hf, hn, sys_dup, hd,
          log, Frame, hne, hd2]
      · left
        simp [discord_dup_shutdown_fd, dup_steps_ok, dup_created, callsSince, h0, hw, hf, hn, sys_dup, hd,
          log, Frame, hne, closesocket, eraseP_hit]

/-- What every `discord_dup_shutdown_fd` call leaves alone, and how the
descriptor table can differ afterwards. -/
theorem dup_frame (cfg : Config) (o : DupOracle) (s : State) :
    Frame s (discord_dup_shutdown_fd cfg o s).1 ∧
    ((discord_dup_shutdown_fd cfg o s).1.tab = s.tab ∨
      ∃ p ro, (discord_dup_shutdown_fd cfg o s).1.tab = ⟨p, ro⟩ :: s.tab ∧
        fresh s.tab p = true) := by
  by_cases h0 : s.shutdown_fds.1 = -1
  · rw [dup_unarmed cfg o s h0]
    exact ⟨rfl, Or.inl rfl⟩
  · rcases dup_cases cfg o s h0 with ⟨_, _, ht, _, hF⟩ | ⟨_, _, hfr, _, ht, _, _, hF⟩
    · exact ⟨hF, Or.inl ht⟩
    · exact ⟨hF, Or.inr ⟨_, _, ht, hfr⟩⟩

/-! ## Preservation of the manager invariant -/

theorem isOpen_cons (t : List Desc) (d : Desc) (h : Int) :
    isOpen (d :: t) h = (d.h == h || isOpen t h) := by
  simp [isOpen]

theorem inv_fds_unarmed (s : State) (hI : Inv s) (h0 : s.init_counter = 0) :
    s.shutdown_fds = (-1, -1) ∧ s.curl_live = false ∧ s.worker_live = false := by
  obtain ⟨_, h2, h3, h4, h5⟩ := hI
  have hn : ¬ (0 : Int) < s.init_counter := by omega
  refine ⟨?_, ?_, ?_⟩
  · rcases h2 with h | h
    · exact absurd (h3.mp h) hn
    · exact Prod.ext h.1 h.2
  · cases hc : s.curl_live
    · rfl
    · exact absurd (h4.mp hc) hn
  · cases hc : s.worker_live
    · rfl
    · exact absurd (h5.mp hc) hn

theorem inv_constructed (cfg : Config) (o : InitOracle) (s : State)
    (hok : firstFailure cfg s.tab o = none) : Inv (constructed cfg o s) := by
  have h3 : steps_ok cfg s.tab o.sp = true := by
    unfold firstFailure at hok
    by_contra hc
    have hcf : steps_ok cfg s.tab o.sp = false := by simpa using hc
    by_cases h1 : o.curl_rc = 0 <;> by_cases h2 : o.worker_rc = 0 <;> simp [h1, h2, hcf] at hok
  have hf := steps_ok_fresh cfg s.tab o.sp h3
  simp [Inv, constructed, validOpen, isOpen, hf.1, hf.2.1]

theorem inv_rolledBack (cfg : Config) (o : InitOracle) (s : State) (k : Stage)
    (hw : s.worker_live = false) : Inv (rolledBack cfg o s k) := by
  simp [Inv, rolledBack, validOpen, hw]

theorem inv_init (cfg : Config) (o : InitOracle) (s : State) (hI : Inv s)
    (hmax : s.init_counter < 2147483647) :
    Inv (ccord_global_init cfg o s).1 := by
  by_cases h0 : s.init_counter = 0
  · have hu := inv_fds_unarmed s hI h0
    cases hk : firstFailure cfg s.tab o with
    | none => rw [init_first_ok cfg o s h0 hk]; exact inv_constructed cfg o s hk
    | some k =>
      rw [init_first_fail cfg o s k h0 hu.1 hk]
      exact inv_rolledBack cfg o s k hu.2.2
  · rw [init_again cfg o s h0]
    obtain ⟨h1, h2, h3, h4, h5⟩ := hI
    have hw : wrap32 (s.init_counter + 1) = s.init_counter + 1 :=
      wrap32_id _ (by omega) (by omega)
    have hp : 0 < s.init_counter := by omega
    have hp2 : 0 < s.init_counter + 1 := by omega
    simp only [Inv, validOpen, hw] at *
    simp only [hp, hp2, iff_true] at *
    exact ⟨by omega, h2, h3, h4, h5⟩

theorem inv_cleanup (s : State) (hI : Inv s) (hmax : s.init_counter ≤ 2147483647) :
    Inv (ccord_global_cleanup s) := by
  by_cases h0 : s.init_counter = 0
  · rw [cleanup_zero s h0]; exact hI
  by_cases h1 : s.init_counter = 1
  · rw [cleanup_last s h1]
    simp [Inv, tornDown, validOpen]
  · obtain ⟨h1, h2, h3, h4, h5⟩ := hI
    have hw : wrap32 (s.init_counter - 1) = s.init_counter - 1 :=
      wrap32_id _ (by omega) (by omega)
    rw [cleanup_many s h0 (by rw [hw]; omega)]
    have hp : 0 < s.init_counter := by omega
    have hp2 : 0 < s.init_counter - 1 := by omega
    simp only [Inv, validOpen, hw] at *
    simp only [hp, hp2, iff_true] at *
    exact ⟨by omega, h2, h3, h4, h5⟩

theorem inv_of_tab_grow (s r : State) (hI : Inv s) (hF : Frame s r)
    (ht : r.tab = s.tab ∨ ∃ d, r.tab = d :: s.tab) : Inv r := by
  have hmono : ∀ h, validOpen s h = true → validOpen r h = true := by
    intro h hv
    rcases ht with e | ⟨d, e⟩
    · simpa [validOpen, e] using hv
    · simp only [validOpen, e, isOpen_cons] at hv ⊢
      simp only [Bool.and_eq_true] at hv ⊢
      exact ⟨hv.1, by simp [hv.2]⟩
  unfold Frame at hF
  obtain ⟨h1, h2, h3, h4, h5⟩ := hI
  have e1 : r.init_counter = s.init_counter := by rw [hF]
  have e2 : r.shutdown_fds = s.shutdown_fds := by rw [hF]
  have e3 : r.curl_live = s.curl_live := by rw [hF]
  have e4 : r.worker_live = s.worker_live := by rw [hF]
  unfold Inv
  rw [e1, e2, e3, e4]
  have hv : (validOpen r s.shutdown_fds.1 = true ∧ validOpen r s.shutdown_fds.2 = true) ∨
      (s.shutdown_fds.1 = -1 ∧ s.shutdown_fds.2 = -1) := by
    rcases h2 with h | h
    · exact Or.inl ⟨hmono _ h.1, hmono _ h.2⟩
    · exact Or.inr h
  refine ⟨h1, hv, ⟨fun h => ?_, fun h => ?_⟩, h4, h5⟩
  · rcases h2 with h' | h'
    · exact h3.mp h'
    · simp [validOpen, h'.1] at h
  · have := h3.mpr h
    exact ⟨hmono _ this.1, hmono _ this.2⟩

theorem inv_dup (cfg : Config) (o : DupOracle) (s : State) (hI : Inv s) :
    Inv (discord_dup_shutdown_fd cfg o s).1 := by
  rcases dup_frame cfg o s with ⟨hF, ht | ⟨p, ro, ht, _⟩⟩
  · exact inv_of_tab_grow s _ hI hF (Or.inl ht)
  · exact inv_of_tab_grow s _ hI hF (Or.inr ⟨_, ht⟩)

theorem inv_shutdown_async (s : State) (hI : Inv s) : Inv (ccord_shutdown_async s) := by
  unfold ccord_shutdown_async sys_write
  split
  · simpa [Inv, validOpen] using hI
  · exact hI

theorem inv_step (cfg : Config) (s : State) (op : Op) (hI : Inv s)
    (hrange : s.init_counter ≤ INT_MAX)
    (hno : ∀ o, op = Op.global_init o → s.init_counter ≠ INT_MAX) : Inv (step cfg s op) := by
  unfold INT_MAX at hrange hno
  cases op with
  | global_init o =>
    have := hno o rfl
    exact inv_init cfg o s hI (by omega)
  | global_cleanup => exact inv_cleanup s hI hrange
  | shutdown_async => exact inv_shutdown_async s hI
  | shutting_down => exact hI
  | dup_shutdown_fd o => exact inv_dup cfg o s hI

theorem fail_curl_init_frame (s : State) :
    (fail_curl_init s).1.init_counter = 0 ∧ (fail_curl_init s).1.handler = s.handler :=
  ⟨rfl, rfl⟩

theorem fail_discord_worker_init_frame (s : State) :
    (fail_discord_worker_init s).1.init_counter = 0 ∧
      (fail_discord_worker_init s).1.handler = s.handler :=
  ⟨rfl, rfl⟩

theorem fail_pipe_init_frame (s : State) :
    (fail_pipe_init s).1.init_counter = 0 ∧ (fail_pipe_init s).1.handler = s.handler := by
  unfold fail_pipe_init
  simp only [compat_close_socket, closesocket, log]
  split_ifs <;> exact ⟨rfl, rfl⟩

theorem compat_socketpair_frame (cfg : Config) (s : State) (fds : Int × Int)
    (o : SockOracle) :
    (compat_socketpair cfg s fds o).1.init_counter = s.init_counter ∧
      (compat_socketpair cfg s fds o).1.handler = s.handler := by
  rw [compat_socketpair_eq]
  split_ifs <;> exact ⟨rfl, rfl⟩

/-- A constructing `ccord_global_init`, whatever `shutdown_fds` holds: the
counter ends at 0 or 1 and the handler is installed when compiled in. -/
theorem init_first_frame (cfg : Config) (o : InitOracle) (s : State)
    (h0 : s.init_counter = 0) :
    ((ccord_global_init cfg o s).1.init_counter = 0 ∨
      (ccord_global_init cfg o s).1.init_counter = 1) ∧
    (ccord_global_init cfg o s).1.handler = (cfg.sigintcatch || s.handler) := by
  have hc := fun t fds => (compat_socketpair_frame cfg t fds o.sp).1
  have hh := fun t fds => (compat_socketpair_frame cfg t fds o.sp).2
  by_cases hs : cfg.sigintcatch = true <;>
  · simp only [ccord_global_init, h0, beq_self_eq_true, if_true, wrap32_one, hs, if_false]
    split_ifs <;>
    first
    | contradiction
    | exact ⟨Or.inl (fail_curl_init_frame _).1, by
        rw [(fail_curl_init_frame _).2]
        simp [curl_global_init, sys_signal_install, log, hs]⟩
    | exact ⟨Or.inl (fail_discord_worker_init_frame _).1, by
        rw [(fail_discord_worker_init_frame _).2]
        simp [curl_global_init, discord_worker_global_init, sys_signal_install, log, hs]⟩
    | exact ⟨Or.inl (fail_pipe_init_frame _).1, by
        rw [(fail_pipe_init_frame _).2]
        simp [curl_global_init, discord_worker_global_init, compat_set_nonblocking,
          sys_signal_install, log, hs, hh]⟩
    | exact ⟨Or.inr (by
        simp [curl_global_init, discord_worker_global_init, compat_set_nonblocking,
          sys_signal_install, log, hc]), by
        simp [curl_global_init, discord_worker_global_init, compat_set_nonblocking,
          sys_signal_install, log, hs, hh]⟩

/-- The counter after any public call is a C `int`. -/
theorem range_step (cfg : Config) (s : State) (op : Op)
    (h : INT_MIN ≤ s.init_counter ∧ s.init_counter ≤ INT_MAX) :
    INT_MIN ≤ (step cfg s op).init_counter ∧ (step cfg s op).init_counter ≤ INT_MAX := by
  cases op with
  | global_init o =>
    simp only [step]
    by_cases h0 : s.init_counter = 0
    · rcases (init_first_frame cfg o s h0).1 with e | e <;> rw [e] <;> decide
    · rw [init_again cfg o s h0]
      exact wrap32_range _
  | global_cleanup =>
    simp only [step, ccord_global_cleanup]
    have hw := wrap32_range (s.init_counter - 1)
    split_ifs <;> first | exact h | exact hw
  | shutdown_async =>
    simp only [step, ccord_shutdown_async, sys_write]
    split <;> exact h
  | shutting_down => exact h
  | dup_shutdown_fd o =>
    have hF := (dup_frame cfg o s).1
    unfold Frame at hF
    simp only [step]
    rw [hF]; exact h

/-! ## Construction happens once (C1) -/

theorem init_calls_cons (cfg : Config) (o : InitOracle) (os : List InitOracle) (s : State) :
    init_calls cfg (o :: os) s =
      ((init_calls cfg os (ccord_global_init cfg o s).1).1,
        (ccord_global_init cfg o s).2 :: (init_calls cfg os (ccord_global_init cfg o s).1).2) :=
  rfl

theorem init_calls_append (cfg : Config) (l m : List InitOracle) (s : State) :
    init_calls cfg (l ++ m) s =
      ((init_calls cfg m (init_calls cfg l s).1).1,
        (init_calls cfg l s).2 ++ (init_calls cfg m (init_calls cfg l s).1).2) := by
  induction l generalizing s with
  | nil => rfl
  | cons o l ih => simp only [List.cons_append, init_calls_cons, ih]

theorem init_calls_armed (cfg : Config) (os : List InitOracle) (s : State)
    (h : 0 < s.init_counter) (hb : s.init_counter + os.length ≤ 2147483647) :
    init_calls cfg os s =
      ({ s with init_counter := s.init_counter + os.length },
        List.replicate os.length CCORDcode.CCORD_OK) := by
  induction os generalizing s with
  | nil => simp [init_calls]
  | cons o os ih =>
    have hne : s.init_counter ≠ 0 := by omega
    simp only [List.length_cons, Nat.cast_add, Nat.cast_one] at hb
    have hw : wrap32 (s.init_counter + 1) = s.init_counter + 1 :=
      wrap32_id _ (by omega) (by omega)
    simp only [init_calls, init_again cfg o s hne, hw]
    rw [ih _ (by show 0 < s.init_counter + 1; omega)
      (by show s.init_counter + 1 + (os.length : Int) ≤ 2147483647; omega)]
    simp only [List.length_cons, List.replicate_succ, Nat.cast_add, Nat.cast_one]
    refine Prod.ext ?_ rfl
    show State.mk _ _ _ _ _ _ _ _ = State.mk _ _ _ _ _ _ _ _
    congr 1
    omega

theorem constructed_counts (cfg : Config) (o : InitOracle) :
    (sigTrace cfg ++ constructTrace cfg o).countP Ev.isCurlInit = 1 ∧
    (sigTrace cfg ++ constructTrace cfg o).countP Ev.isWorkerInit = 1 ∧
    (sigTrace cfg ++ constructTrace cfg o).countP Ev.isSocketpair = 1 := by
  by_cases hs : cfg.sigintcatch = true <;>
    simp [sigTrace, constructTrace, hs, List.countP_cons, Ev.isCurlInit, Ev.isWorkerInit,
      Ev.isSocketpair]

/-- The state after 2147483648 successful `ccord_global_init` calls from the
initial state (POSIX build): the constructed state with the counter wrapped to
`INT_MIN`. -/
theorem overflow_state :
    (init_calls posixCfg (List.replicate 2147483648 goodOracle) initial).1 =
      { constructed posixCfg goodOracle initial with init_counter := -2147483648 } := by
  have e : (2147483648 : Nat) = 2147483646 + 1 + 1 := by norm_num
  rw [e, List.replicate_succ, List.replicate_succ', init_calls_cons, init_calls_append]
  have h1 := init_first_ok posixCfg goodOracle initial rfl (by decide)
  rw [h1]
  rw [init_calls_armed posixCfg (List.replicate 2147483646 goodOracle)
    (constructed posixCfg goodOracle initial) (by decide)
    (by rw [List.length_replicate]; decide)]
  rw [List.length_replicate]
  simp only [init_calls]
  rw [init_again posixCfg goodOracle _ (by decide)]
  decide

/-- C1 as stated fails at N = 2147483648: from the initial state, 2147483648
successive `ccord_global_init` calls in which every construction step succeeds
leave `init_counter` at -2147483648 (the C `int` has wrapped), not at N. -/
theorem C1_counter_overflows :
    (∀ o ∈ List.replicate 2147483648 goodOracle, firstFailure posixCfg initial.tab o = none) ∧
    (init_calls posixCfg (List.replicate 2147483648 goodOracle) initial).1.init_counter =
      -2147483648 ∧
    (init_calls posixCfg (List.replicate 2147483648 goodOracle) initial).1.init_counter ≠
      ((2147483648 : Nat) : Int) := by
  refine ⟨?_, by rw [overflow_state], by rw [overflow_state]; decide⟩
  intro o ho
  rw [List.eq_of_mem_replicate ho]
  decide

/-- C1 (amended): starting from the initial state, if every construction step
of the first call succeeds, then N successive `ccord_global_init` calls with
1 ≤ N ≤ 2147483647 (`INT_MAX`) all return `CCORD_OK`, leave `init_counter = N`,
and `curl_global_init`, `discord_worker_global_init` and `compat_socketpair`
are each called exactly once, all by the first call (the log after the N calls
is the log after the first). -/
theorem C1_init_constructs_once (cfg : Config) (N : Nat) (hN : 1 ≤ N) (hmax : N ≤ 2147483647)
    (os : List InitOracle) (hlen : os.length = N)
    (hok : ∀ o ∈ os, firstFailure cfg initial.tab o = none) :
    (init_calls cfg os initial).2 = List.replicate N CCORDcode.CCORD_OK ∧
    (init_calls cfg os initial).1.init_counter = N ∧
    (init_calls cfg os initial).1.trace.countP Ev.isCurlInit = 1 ∧
    (init_calls cfg os initial).1.trace.countP Ev.isWorkerInit = 1 ∧
    (init_calls cfg os initial).1.trace.countP Ev.isSocketpair = 1 ∧
    (∀ o ∈ os.head?, (init_calls cfg os initial).1.trace =
      (ccord_global_init cfg o initial).1.trace) := by
  cases os with
  | nil => simp at hlen; omega
  | cons o rest =>
    have h1 := init_first_ok cfg o initial rfl (hok o (List.mem_cons_self _ _))
    have hc := constructed_counts cfg o
    simp only [List.length_cons] at hlen
    subst hlen
    simp only [init_calls, h1]
    rw [init_calls_armed cfg rest _ (by simp [constructed])
      (by
        have : ((rest.length + 1 : Nat) : Int) ≤ 2147483647 := by exact_mod_cast hmax
        simp only [constructed]
        push_cast at this
        omega)]
    refine ⟨by simp [List.replicate_succ], by simp [constructed, add_comm], ?_, ?_, ?_, ?_⟩
    · simpa [constructed, initial] using hc.1
    · simpa [constructed, initial] using hc.2.1
    · simpa [constructed, initial] using hc.2.2
    · simp [h1]

theorem C1_init_constructs_once_witness :
    (init_calls win32Cfg [goodOracle, goodOracle, goodOracle] initial).2 =
      List.replicate 3 CCORDcode.CCORD_OK ∧
    (init_calls win32Cfg [goodOracle, goodOracle, goodOracle] initial).1.init_counter = (3 : Nat) ∧
    (init_calls win32Cfg [goodOracle, goodOracle, goodOracle] initial).1.trace.countP
      Ev.isCurlInit = 1 :=
  have h := C1_init_constructs_once win32Cfg 3 (by decide) (by decide) [goodOracle, goodOracle, goodOracle]
    rfl (by decide)
  ⟨h.1, h.2.1, h.2.2.1⟩

/-! ## Teardown happens once (C2) -/

theorem bal_nil : bal [] = 0 := by simp [bal]

theorem bal_cons_init (o : InitOracle) (l : List Op) :
    bal (Op.global_init o :: l) = bal l + 1 := by
  simp [bal, List.countP_cons, Op.isInit, Op.isCleanup]; omega

theorem bal_cons_cleanup (l : List Op) : bal (Op.global_cleanup :: l) = bal l - 1 := by
  simp [bal, List.countP_cons, Op.isInit, Op.isCleanup]; omega

theorem bal_append (l m : List Op) : bal (l ++ m) = bal l + bal m := by
  simp [bal, List.countP_append]; omega

theorem run_nil (cfg : Config) (s : State) : run cfg [] s = s := rfl

theorem run_cons (cfg : Config) (op : Op) (l : List Op) (s : State) :
    run cfg (op :: l) s = run cfg l (step cfg s op) := rfl

theorem run_append (cfg : Config) (l m : List Op) (s : State) :
    run cfg (l ++ m) s = run cfg m (run cfg l s) := by
  simp [run, List.foldl_append]

theorem run_map_init (cfg : Config) (os : List InitOracle) (s : State) :
    run cfg (os.map Op.global_init) s = (init_calls cfg os s).1 := by
  induction os generalizing s with
  | nil => rfl
  | cons o os ih => simp only [List.map_cons, run_cons, step, init_calls_cons, ih]

/-- The state after 2147483648 successful `ccord_global_init` calls, as a run
of public calls. -/
theorem overflow_run :
    run posixCfg (List.replicate 2147483648 (Op.global_init goodOracle)) initial =
      { constructed posixCfg goodOracle initial with init_counter := -2147483648 } := by
  rw [← List.map_replicate, run_map_init, overflow_state]

theorem init_ok_of_code (cfg : Config) (o : InitOracle) (s : State) (h0 : s.init_counter = 0)
    (hfds : s.shutdown_fds = (-1, -1))
    (h : (ccord_global_init cfg o s).2 = CCORDcode.CCORD_OK) :
    firstFailure cfg s.tab o = none := by
  cases hk : firstFailure cfg s.tab o with
  | none => rfl
  | some k => rw [init_first_fail cfg o s k h0 hfds hk] at h; cases h

theorem withCounter_counter (s : State) (c : Int) : (withCounter s c).init_counter = c := rfl

theorem withCounter_twice (s : State) (a b : Int) :
    withCounter (withCounter s a) b = withCounter s b := rfl

theorem init_again_wc (cfg : Config) (o : InitOracle) (s : State) (h : s.init_counter ≠ 0) :
    (ccord_global_init cfg o s).1 = withCounter s (wrap32 (s.init_counter + 1)) := by
  rw [init_again cfg o s h]; rfl

theorem cleanup_many_wc (s : State) (h0 : s.init_counter ≠ 0)
    (h1 : wrap32 (s.init_counter - 1) ≠ 0) :
    ccord_global_cleanup s = withCounter s (wrap32 (s.init_counter - 1)) := by
  rw [cleanup_many s h0 h1]; rfl

theorem cleanup_counter (s : State) (h0 : s.init_counter ≠ 0) :
    (ccord_global_cleanup s).init_counter = wrap32 (s.init_counter - 1) := by
  by_cases h1 : wrap32 (s.init_counter - 1) = 0
  · rw [cleanup_last_wrap s h0 h1, h1]; rfl
  · rw [cleanup_many s h0 h1]

/-- Shape of a balanced run of successful inits and cleanups whose counter
does not return to zero before the last call: between the constructing first
call and the last call, the state is the constructed one with the counter
following the balance. -/
theorem balanced_shape (cfg : Config) (N : Nat) (hN : 1 ≤ N) (ops : List Op)
    (hkind : ∀ op ∈ ops, op.isInit = true ∨ op.isCleanup = true)
    (hi : ops.countP Op.isInit = N) (hc : ops.countP Op.isCleanup = N)
    (hsucc : ∀ k o, ops[k]? = some (Op.global_init o) →
      (ccord_global_init cfg o (run cfg (ops.take k) initial)).2 = CCORDcode.CCORD_OK)
    (hnn : ∀ k, k ≤ ops.length → 0 ≤ bal (ops.take k))
    (hzero : ∀ k, 0 < k → k < ops.length →
      (run cfg (ops.take k) initial).init_counter ≠ 0) :
    ∃ o front, ops = Op.global_init o :: (front ++ [Op.global_cleanup]) ∧
      firstFailure cfg initial.tab o = none ∧
      (∀ j, j ≤ front.length →
        run cfg (front.take j) (constructed cfg o initial) =
          withCounter (constructed cfg o initial) (wrap32 (1 + bal (front.take j)))) ∧
      bal front = 0 := by
  cases ops with
  | nil => simp at hi; omega
  | cons op0 rest =>
    rcases List.eq_nil_or_concat rest with hr | ⟨front, last, hr⟩
    · subst hr
      cases op0 <;> simp [Op.isInit, Op.isCleanup] at hi hc <;> omega
    · rw [List.concat_eq_append] at hr
      subst hr
      have hp1 := hnn 1 (by simp)
      have hk0 := hkind op0 (List.mem_cons_self _ _)
      cases op0 with
      | global_cleanup => simp [bal_cons_cleanup, bal_nil] at hp1
      | shutdown_async => simp [Op.isInit, Op.isCleanup] at hk0
      | shutting_down => simp [Op.isInit, Op.isCleanup] at hk0
      | dup_shutdown_fd o => simp [Op.isInit, Op.isCleanup] at hk0
      | global_init o =>
        have hok : firstFailure cfg initial.tab o = none :=
          init_ok_of_code cfg o initial rfl rfl (by simpa [run_nil] using hsucc 0 o (by simp))
        have h1 := init_first_ok cfg o initial rfl hok
        have hkf : ∀ op ∈ front, op.isInit = true ∨ op.isCleanup = true :=
          fun op h => hkind op (by simp [h])
        have hrun : ∀ j, j ≤ front.length →
            run cfg ((Op.global_init o :: (front ++ [last])).take (j + 1)) initial =
              run cfg (front.take j) (constructed cfg o initial) := by
          intro j hj
          rw [List.take_succ_cons, List.take_append_of_le_length hj, run_cons]
          simp only [step, h1]
        have hC : ∀ j, j ≤ front.length →
            run cfg (front.take j) (constructed cfg o initial) =
              withCounter (constructed cfg o initial) (wrap32 (1 + bal (front.take j))) := by
          intro j
          induction j with
          | zero =>
            intro _
            simp only [List.take_zero, run_nil, bal_nil]
            rfl
          | succ j ih =>
            intro hj
            have hjl : j < front.length := hj
            have ihj := ih (Nat.le_of_lt hjl)
            have hz : (run cfg (front.take j) (constructed cfg o initial)).init_counter ≠ 0 := by
              rw [← hrun j (Nat.le_of_lt hjl)]
              exact hzero (j + 1) (by omega) (by simp; omega)
            have hz2 : (run cfg (front.take (j + 1)) (constructed cfg o initial)).init_counter
                ≠ 0 := by
              rw [← hrun (j + 1) hj]
              exact hzero (j + 1 + 1) (by omega) (by simp; omega)
            have hx : front[j]? = some (front.get ⟨j, hjl⟩) := by
              simp [List.getElem?_eq_getElem hjl]
            have hmem := hkf (front.get ⟨j, hjl⟩) (List.get_mem _ _ _)
            have htake : front.take (j + 1) = front.take j ++ [front.get ⟨j, hjl⟩] := by
              rw [List.take_succ, hx]; rfl
            rw [htake, run_append, run_cons, run_nil] at hz2 ⊢
            rw [ihj] at hz hz2 ⊢
            rw [withCounter_counter] at hz
            cases hop : front.get ⟨j, hjl⟩ with
            | global_init o2 =>
              simp only [step]
              rw [init_again_wc cfg o2 _ (by rw [withCounter_counter]; exact hz),
                withCounter_twice, withCounter_counter, bal_append, bal_cons_init, bal_nil,
                wrap32_add]
              congr 2; omega
            | global_cleanup =>
              rw [hop] at hz2
              simp only [step] at hz2 ⊢
              rw [cleanup_counter _ (by rw [withCounter_counter]; exact hz),
                withCounter_counter] at hz2
              rw [cleanup_many_wc _ (by rw [withCounter_counter]; exact hz)
                  (by rw [withCounter_counter]; exact hz2),
                withCounter_twice, withCounter_counter, bal_append, bal_cons_cleanup, bal_nil,
                wrap32_sub]
              congr 2; omega
            | shutdown_async => rw [hop] at hmem; simp [Op.isInit, Op.isCleanup] at hmem
            | shutting_down => rw [hop] at hmem; simp [Op.isInit, Op.isCleanup] at hmem
            | dup_shutdown_fd o2 => rw [hop] at hmem; simp [Op.isInit, Op.isCleanup] at hmem
        have hb : bal (Op.global_init o :: (front ++ [last])) = 0 := by
          simp only [bal, hi, hc]; omega
        rw [bal_cons_init, bal_append] at hb
        have hfl := hnn (front.length + 1) (by simp)
        rw [List.take_succ_cons, List.take_append_of_le_length (Nat.le_refl _), List.take_length,
          bal_cons_init] at hfl
        have hlast : last = Op.global_cleanup ∧ bal front = 0 := by
          cases last with
          | global_init o2 => rw [bal_cons_init, bal_nil] at hb; omega
          | global_cleanup => rw [bal_cons_cleanup, bal_nil] at hb; exact ⟨rfl, by omega⟩
          | shutdown_async =>
            simpa [Op.isInit, Op.isCleanup] using hkind Op.shutdown_async (by simp)
          | shutting_down =>
            simpa [Op.isInit, Op.isCleanup] using hkind Op.shutting_down (by simp)
          | dup_shutdown_fd o2 =>
            simpa [Op.isInit, Op.isCleanup] using hkind (Op.dup_shutdown_fd o2) (by simp)
        exact ⟨o, front, by rw [hlast.1], hok, hC, hlast.2⟩

theorem constructed_no_teardown (cfg : Config) (o : InitOracle) :
    Ev.curl_global_cleanup ∉ (constructed cfg o initial).trace ∧
    Ev.discord_worker_global_cleanup ∉ (constructed cfg o initial).trace ∧
    (∀ h, Ev.close h ∉ (constructed cfg o initial).trace) := by
  by_cases hs : cfg.sigintcatch = true <;>
    simp [constructed, initial, sigTrace, constructTrace, hs]

/-- C2: in a run from the initial state made of N successful
`ccord_global_init` calls and N `ccord_global_cleanup` calls (N ≥ 1) in which no
prefix holds more cleanups than inits and `init_counter` is not 0 between the
first and the last call, the last call is a cleanup and it alone tears down:
before it the log holds no `curl_global_cleanup`, no
`discord_worker_global_cleanup` and no `close`, and both shutdown handles are
open; the last call appends exactly `curl_global_cleanup`,
`discord_worker_global_cleanup` and the `close` of each shutdown handle, and
leaves the counter at 0, the handles closed and reset to `-1`, and the
dependents down.  Every earlier cleanup changes nothing but `init_counter`,
which it decrements (as a C `int`). -/
theorem C2_teardown_once (cfg : Config) (N : Nat) (hN : 1 ≤ N) (ops : List Op)
    (hkind : ∀ op ∈ ops, op.isInit = true ∨ op.isCleanup = true)
    (hi : ops.countP Op.isInit = N) (hc : ops.countP Op.isCleanup = N)
    (hsucc : ∀ k o, ops[k]? = some (Op.global_init o) →
      (ccord_global_init cfg o (run cfg (ops.take k) initial)).2 = CCORDcode.CCORD_OK)
    (hnn : ∀ k, k ≤ ops.length → 0 ≤ bal (ops.take k))
    (hzero : ∀ k, 0 < k → k < ops.length →
      (run cfg (ops.take k) initial).init_counter ≠ 0) :
    ops.getLast? = some Op.global_cleanup ∧
    Ev.curl_global_cleanup ∉ (run cfg ops.dropLast initial).trace ∧
    Ev.discord_worker_global_cleanup ∉ (run cfg ops.dropLast initial).trace ∧
    (∀ h, Ev.close h ∉ (run cfg ops.dropLast initial).trace) ∧
    validOpen (run cfg ops.dropLast initial) (run cfg ops.dropLast initial).shutdown_fds.1 = true ∧
    validOpen (run cfg ops.dropLast initial) (run cfg ops.dropLast initial).shutdown_fds.2 = true ∧
    (run cfg ops initial).trace = (run cfg ops.dropLast initial).trace ++
      [Ev.curl_global_cleanup, Ev.discord_worker_global_cleanup,
       Ev.close (run cfg ops.dropLast initial).shutdown_fds.1,
       Ev.close (run cfg ops.dropLast initial).shutdown_fds.2] ∧
    (run cfg ops initial).init_counter = 0 ∧
    (run cfg ops initial).shutdown_fds = (-1, -1) ∧
    isOpen (run cfg ops initial).tab (run cfg ops.dropLast initial).shutdown_fds.1 = false ∧
    isOpen (run cfg ops initial).tab (run cfg ops.dropLast initial).shutdown_fds.2 = false ∧
    (run cfg ops initial).curl_live = false ∧
    (run cfg ops initial).worker_live = false ∧
    (∀ k, k + 1 < ops.length → ops[k]? = some Op.global_cleanup →
      run cfg (ops.take (k + 1)) initial =
        { run cfg (ops.take k) initial with
            init_counter := wrap32 ((run cfg (ops.take k) initial).init_counter - 1) }) := by
  obtain ⟨o, front, rfl, hok, hC, hb⟩ :=
    balanced_shape cfg N hN ops hkind hi hc hsucc hnn hzero
  have h1 := init_first_ok cfg o initial rfl hok
  have hfront : run cfg front (constructed cfg o initial) = constructed cfg o initial := by
    have := hC front.length (Nat.le_refl _)
    rw [List.take_length, hb] at this
    rw [this]; rfl
  have hbefore : run cfg (Op.global_init o :: (front ++ [Op.global_cleanup])).dropLast initial =
      constructed cfg o initial := by
    have : (Op.global_init o :: (front ++ [Op.global_cleanup])).dropLast =
        Op.global_init o :: front := by
      rw [← List.cons_append, List.dropLast_concat]
    rw [this, run_cons]
    simp only [step, h1]
    exact hfront
  have hfinal : run cfg (Op.global_init o :: (front ++ [Op.global_cleanup])) initial =
      tornDown (constructed cfg o initial) := by
    rw [run_cons, run_append]
    simp only [step, h1]
    rw [hfront, run_cons, run_nil]
    simp only [step]
    exact cleanup_last _ (by simp [constructed])
  have hf := steps_ok_fresh cfg initial.tab o.sp (by
    unfold firstFailure at hok
    by_contra hcn
    have hcf : steps_ok cfg initial.tab o.sp = false := by simpa using hcn
    by_cases e1 : o.curl_rc = 0 <;> by_cases e2 : o.worker_rc = 0 <;> simp [e1, e2, hcf] at hok)
  have hnt := constructed_no_teardown cfg o
  rw [hbefore, hfinal]
  refine ⟨?_, hnt.1, hnt.2.1, hnt.2.2, ?_, ?_, ?_, ?_, ?_, ?_, ?_, ?_, ?_, ?_⟩
  · rw [← List.cons_append, List.getLast?_concat]
  · simp [validOpen, constructed, isOpen, hf.1]
  · simp [validOpen, constructed, isOpen, hf.2.1]
  · simp [tornDown]
  · simp [tornDown]
  · simp [tornDown]
  · simp [tornDown, constructed, initial, eraseP_hit, isOpen]
  · simp [tornDown, constructed, initial, eraseP_hit, isOpen]
  · simp [tornDown]
  · simp [tornDown]
  · intro k hk hget
    cases k with
    | zero => simp at hget
    | succ j =>
      have hj : j < front.length := by simp at hk; omega
      have hgj : front[j]? = some Op.global_cleanup := by
        rw [List.getElem?_cons_succ, List.getElem?_append_left hj] at hget
        exact hget
      have e1 : (Op.global_init o :: (front ++ [Op.global_cleanup])).take (j + 1) =
          Op.global_init o :: front.take j := by
        rw [List.take_succ_cons, List.take_append_of_le_length (Nat.le_of_lt hj)]
      have e2 : (Op.global_init o :: (front ++ [Op.global_cleanup])).take (j + 1 + 1) =
          Op.global_init o :: front.take (j + 1) := by
        rw [List.take_succ_cons, List.take_append_of_le_length hj]
      have hbal : bal (front.take (j + 1)) = bal (front.take j) - 1 := by
        rw [List.take_succ, hgj, bal_append]
        simp [bal, Op.isInit, Op.isCleanup]
        omega
      rw [e1, e2, run_cons, run_cons]
      simp only [step, h1]
      rw [hC j (Nat.le_of_lt hj), hC (j + 1) hj, hbal]
      show withCounter _ _ = withCounter _ _
      rw [withCounter_counter, wrap32_sub]
      have e : 1 + (bal (List.take j front) - 1) = 1 + bal (List.take j front) - 1 := by omega
      rw [e, withCounter_twice]

theorem C2_teardown_once_witness :
    (run posixCfg [Op.global_init goodOracle, Op.global_init goodOracle, Op.global_cleanup,
        Op.global_cleanup] initial).init_counter = 0 ∧
    (run posixCfg [Op.global_init goodOracle, Op.global_init goodOracle, Op.global_cleanup,
        Op.global_cleanup] initial).shutdown_fds = (-1, -1) ∧
    run posixCfg [Op.global_init goodOracle, Op.global_init goodOracle, Op.global_cleanup] initial =
      { run posixCfg [Op.global_init goodOracle, Op.global_init goodOracle] initial with
          init_counter := 1 } :=
  have h := C2_teardown_once posixCfg 2 (by decide)
    [Op.global_init goodOracle, Op.global_init goodOracle, Op.global_cleanup, Op.global_cleanup]
    (by decide) (by decide) (by decide)
    (by
      intro k o hk
      match k, hk with
      | 0, hk =>
        have e : o = goodOracle := by simpa using hk.symm
        subst e; decide
      | 1, hk =>
        have e : o = goodOracle := by simpa using hk.symm
        subst e; decide
      | 2, hk => simp at hk
      | 3, hk => simp at hk
      | k + 4, hk => simp at hk)
    (by
      intro k h1
      have h3 : k ≤ 4 := h1
      interval_cases k <;> decide)
    (by
      intro k h1 h2
      have h3 : k < 4 := h2
      interval_cases k <;> decide)
  ⟨h.2.2.2.2.2.2.2.1, h.2.2.2.2.2.2.2.2.1, h.2.2.2.2.2.2.2.2.2.2.2.2.2 2 (by decide) rfl⟩

/-! ## A failed initialisation rolls back (C3) -/

theorem roleOf_cons (d : Desc) (t : List Desc) (h : Int) :
    roleOf (d :: t) h = if d.h = h then d.role else roleOf t h := by
  by_cases e : d.h = h <;> simp [roleOf, List.find?_cons, e]

theorem roleOf_open (t : List Desc) (h : Int) (hr : roleOf t h ≠ Role.idle) :
    isOpen t h = true := by
  induction t with
  | nil => simp [roleOf] at hr
  | cons d t ih =>
    rw [roleOf_cons] at hr
    rw [isOpen_cons]
    by_cases e : d.h = h
    · simp [e]
    · simp only [e, if_false] at hr
      simp [ih hr]

theorem roleOf_cons_fresh (p : Int) (r : Role) (t : List Desc) (h : Int)
    (hp : fresh t p = true) (hr : roleOf t h ≠ Role.idle) :
    roleOf (⟨p, r⟩ :: t) h = roleOf t h := by
  rw [roleOf_cons]
  have ho := roleOf_open t h hr
  have : p ≠ h := by
    intro e
    subst e
    simp [fresh, ho] at hp
  simp [this]

theorem pending_bump_self (bs : List Nat) (n : Nat) (h : n < bs.length) :
    pending (bump bs n) n = pending bs n + 1 := by
  induction bs generalizing n with
  | nil => simp at h
  | cons b bs ih =>
    cases n with
    | zero => simp [bump, pending]
    | succ n => simp only [bump, pending]; exact ih n (by simpa using h)

theorem bump_length (bs : List Nat) (n : Nat) : (bump bs n).length = bs.length := by
  induction bs generalizing n with
  | nil => simp [bump]
  | cons b bs ih => cases n <;> simp [bump, ih]

theorem pending_append_zero (bs : List Nat) : pending (bs ++ [0]) bs.length = 0 := by
  induction bs with
  | nil => simp [pending]
  | cons b bs ih => simpa [pending] using ih

theorem sigInv_poll (s : State) (sig : Bool) (h : SigInv s sig) :
    ccord_shutting_down s = (decide (0 < s.init_counter) && sig) := by
  rcases h with ⟨h0, hf, hs⟩ | ⟨hp, hne, n, _, ho, _, hb⟩
  · simp [ccord_shutting_down, hf, h0, hs]
  · simp only [ccord_shutting_down, sys_poll_in, ho, hp, decide_True, Bool.true_and]
    simp only [beq_iff_eq, hne, if_false]
    cases sig with
    | true => simpa using hb
    | false => simpa using hb

theorem noOverflow_init_segment (cfg : Config) (l : List Op) (op : Op)
    (h : NoOverflow cfg (l ++ [op])) : NoOverflow cfg l := by
  intro k o hk
  have hlt : k < l.length := by
    by_contra hn
    rw [List.getElem?_eq_none (by omega)] at hk
    cases hk
  have := h k o (by rw [List.getElem?_append_left hlt]; exact hk)
  rwa [List.take_append_of_le_length (Nat.le_of_lt hlt)] at this

theorem noOverflow_last (cfg : Config) (l : List Op) (o : InitOracle)
    (h : NoOverflow cfg (l ++ [Op.global_init o])) :
    (run cfg l initial).init_counter ≠ INT_MAX := by
  have := h l.length o (by simp)
  rwa [List.take_append_of_le_length (Nat.le_refl _), List.take_length] at this

theorem range_run (cfg : Config) (ops : List Op) (s : State)
    (h : INT_MIN ≤ s.init_counter ∧ s.init_counter ≤ INT_MAX) :
    INT_MIN ≤ (run cfg ops s).init_counter ∧ (run cfg ops s).init_counter ≤ INT_MAX := by
  induction ops generalizing s with
  | nil => exact h
  | cons op ops ih => exact ih _ (range_step cfg s op h)

theorem track_fst (cfg : Config) (p : State × Bool) (op : Op) :
    (track cfg p op).1 = step cfg p.1 op := rfl

theorem sigInv_init (cfg : Config) (o : InitOracle) (s : State) (sig : Bool)
    (h : SigInv s sig) (hmax : s.init_counter < 2147483647) :
    SigInv (track cfg (s, sig) (Op.global_init o)).1 (track cfg (s, sig) (Op.global_init o)).2 := by
  rcases h with ⟨h0, hf, hs⟩ | ⟨hp, hne, n, hn, ho, hw, hb⟩
  · cases hk : firstFailure cfg s.tab o with
    | none =>
      have h3 : steps_ok cfg s.tab o.sp = true := by
        unfold firstFailure at hk
        by_contra hcn
        have hcf : steps_ok cfg s.tab o.sp = false := by simpa using hcn
        by_cases e1 : o.curl_rc = 0 <;> by_cases e2 : o.worker_rc = 0 <;>
          simp [e1, e2, hcf] at hk
      have hfr := steps_ok_fresh cfg s.tab o.sp h3
      right
      simp only [track, step, init_first_ok cfg o s h0 hk]
      refine ⟨by simp [constructed], by simpa [constructed] using hfr.1, s.bytes.length,
        by simp [constructed], ?_, ?_, ?_⟩
      · simp [constructed, roleOf_cons]
      · simp [constructed, roleOf_cons, hfr.2.2.1]
      · simp [constructed, h0, pending_append_zero]
    | some k =>
      left
      simp only [track, step, init_first_fail cfg o s k h0 hf hk]
      simp [rolledBack]
  · right
    have hne0 : s.init_counter ≠ 0 := by omega
    have hwr : wrap32 (s.init_counter + 1) = s.init_counter + 1 :=
      wrap32_id _ (by omega) (by omega)
    simp only [track, step, init_again cfg o s hne0, hwr]
    have h1 : ¬ (s.init_counter + 1 ≤ 0) := by omega
    have h2 : ¬ (s.init_counter ≤ 0) := by omega
    simp only [h1, h2, if_false]
    exact ⟨by omega, hne, n, hn, ho, hw, hb⟩

theorem sigInv_cleanup (cfg : Config) (s : State) (sig : Bool) (h : SigInv s sig)
    (hmax : s.init_counter ≤ 2147483647) :
    SigInv (track cfg (s, sig) Op.global_cleanup).1 (track cfg (s, sig) Op.global_cleanup).2 := by
  rcases h with ⟨h0, hf, hs⟩ | ⟨hp, hne, n, hn, ho, hw, hb⟩
  · left
    simp only [track, step, cleanup_zero s h0]
    simp [h0, hf]
  · by_cases h1 : s.init_counter = 1
    · left
      simp only [track, step, cleanup_last s h1]
      simp [tornDown]
    · right
      have hwr : wrap32 (s.init_counter - 1) = s.init_counter - 1 :=
        wrap32_id _ (by omega) (by omega)
      simp only [track, step, cleanup_many s (by omega) (by rw [hwr]; omega), hwr]
      have h2 : ¬ (s.init_counter - 1 ≤ 0) := by omega
      have h3 : ¬ (s.init_counter ≤ 0) := by omega
      simp only [h2, h3, if_false]
      exact ⟨by omega, hne, n, hn, ho, hw, hb⟩

theorem sigInv_async (cfg : Config) (s : State) (sig : Bool) (h : SigInv s sig) :
    SigInv (track cfg (s, sig) Op.shutdown_async).1 (track cfg (s, sig) Op.shutdown_async).2 := by
  rcases h with ⟨h0, hf, hs⟩ | ⟨hp, hne, n, hn, ho, hw, hb⟩
  · left
    simp only [track, step, ccord_shutdown_async, sys_write]
    split <;> simp [h0, hf]
  · right
    have hst : step cfg s Op.shutdown_async = { s with bytes := bump s.bytes n } := by
      simp only [step, ccord_shutdown_async, sys_write, hw]
    have h3 : ¬ (s.init_counter ≤ 0) := by omega
    simp only [track, hst, h3, if_false]
    refine ⟨hp, hne, n, by simpa [bump_length] using hn, ho, hw, ?_⟩
    simp [pending_bump_self s.bytes n hn]

theorem sigInv_check (cfg : Config) (s : State) (sig : Bool) (h : SigInv s sig) :
    SigInv (track cfg (s, sig) Op.shutting_down).1 (track cfg (s, sig) Op.shutting_down).2 := by
  rcases h with ⟨h0, hf, hs⟩ | ⟨hp, hne, n, hn, ho, hw, hb⟩
  · left
    simp [track, step, h0, hf]
  · right
    have h3 : ¬ (s.init_counter ≤ 0) := by omega
    simp only [track, step, h3, if_false]
    exact ⟨hp, hne, n, hn, ho, hw, hb⟩

theorem sigInv_frame (s r : State) (sig : Bool) (hF : Frame s r)
    (ht : r.tab = s.tab ∨ ∃ p ro, r.tab = ⟨p, ro⟩ :: s.tab ∧ fresh s.tab p = true)
    (h : SigInv s sig) :
    SigInv r (if r.init_counter ≤ 0 then false else if s.init_counter ≤ 0 then false else sig) := by
  unfold Frame at hF
  have e1 : r.init_counter = s.init_counter := by rw [hF]
  have e2 : r.shutdown_fds = s.shutdown_fds := by rw [hF]
  have e3 : r.bytes = s.bytes := by rw [hF]
  rcases h with ⟨h0, hf, hs⟩ | ⟨hp, hne, n, hn, ho, hw, hb⟩
  · left
    simp [e1, e2, h0, hf]
  · right
    have h3 : ¬ (s.init_counter ≤ 0) := by omega
    simp only [e1, h3, if_false]
    have hro : ∀ h, roleOf s.tab h ≠ Role.idle → roleOf r.tab h = roleOf s.tab h := by
      intro h hr
      rcases ht with e | ⟨p, ro, e, hfr⟩
      · rw [e]
      · rw [e]; exact roleOf_cons_fresh p ro s.tab h hfr hr
    rw [e2, e3]
    refine ⟨hp, hne, n, hn, ?_, ?_, hb⟩
    · rw [hro _ (by rw [ho]; simp), ho]
    · rw [hro _ (by rw [hw]; simp), hw]

theorem sigInv_dup (cfg : Config) (o : DupOracle) (s : State) (sig : Bool) (h : SigInv s sig) :
    SigInv (track cfg (s, sig) (Op.dup_shutdown_fd o)).1
      (track cfg (s, sig) (Op.dup_shutdown_fd o)).2 := by
  simp only [track, step]
  obtain ⟨hF, ht⟩ := dup_frame cfg o s
  exact sigInv_frame s _ sig hF ht h

theorem sigInv_track (cfg : Config) (p : State × Bool) (op : Op) (h : SigInv p.1 p.2)
    (hrange : p.1.init_counter ≤ INT_MAX)
    (hno : ∀ o, op = Op.global_init o → p.1.init_counter ≠ INT_MAX) :
    SigInv (track cfg p op).1 (track cfg p op).2 := by
  obtain ⟨s, sig⟩ := p
  unfold INT_MAX at hrange hno
  cases op with
  | global_init o =>
    have := hno o rfl
    exact sigInv_init cfg o s sig h (by simp only at hrange this; omega)
  | global_cleanup => exact sigInv_cleanup cfg s sig h hrange
  | shutdown_async => exact sigInv_async cfg s sig h
  | shutting_down => exact sigInv_check cfg s sig h
  | dup_shutdown_fd o => exact sigInv_dup cfg o s sig h

theorem track_run (cfg : Config) (ops : List Op) (p : State × Bool) :
    (ops.foldl (track cfg) p).1 = run cfg ops p.1 := by
  induction ops generalizing p with
  | nil => rfl
  | cons op ops ih => simp only [List.foldl_cons, ih, run_cons, track_fst]

theorem sigInv_run (cfg : Config) (ops : List Op) (h : NoOverflow cfg ops) :
    SigInv (ops.foldl (track cfg) (initial, false)).1
      (ops.foldl (track cfg) (initial, false)).2 := by
  induction ops using List.reverseRecOn with
  | nil => exact Or.inl ⟨rfl, rfl, rfl⟩
  | append_singleton l op ih =>
    have hl := ih (noOverflow_init_segment cfg l op h)
    rw [List.foldl_append, List.foldl_cons, List.foldl_nil]
    refine sigInv_track cfg _ op hl ?_ ?_
    · rw [track_run]
      exact (range_run cfg l initial (by decide)).2
    · intro o ho
      subst ho
      rw [track_run]
      exact noOverflow_last cfg l o h

theorem sigInv_stays (cfg : Config) (more : List Op)
    (hm : ∀ op ∈ more, op.isSignalOrCheck = true) (p : State × Bool)
    (h : SigInv p.1 p.2) (hp : 0 < p.1.init_counter) (hs : p.2 = true) :
    ccord_shutting_down (run cfg more p.1) = true := by
  induction more generalizing p with
  | nil =>
    rw [run_nil, sigInv_poll p.1 p.2 h]
    simp [hp, hs]
  | cons op more ih =>
    have hm2 : ∀ op ∈ more, op.isSignalOrCheck = true :=
      fun x hx => hm x (List.mem_cons_of_mem _ hx)
    have hop := hm op (List.mem_cons_self _ _)
    have hnp : ¬ (p.1.init_counter ≤ 0) := by omega
    rw [run_cons, ← track_fst]
    cases op with
    | shutdown_async =>
      have hn := sigInv_async cfg p.1 p.2 h
      have hc : (track cfg p Op.shutdown_async).1.init_counter = p.1.init_counter := by
        simp only [track, step, ccord_shutdown_async, sys_write]
        split <;> rfl
      refine ih hm2 _ hn (by rw [hc]; exact hp) ?_
      have hnc : ¬ ((step cfg p.1 Op.shutdown_async).init_counter ≤ 0) := by
        rw [← track_fst, hc]; exact hnp
      simp only [track, hnc, hnp, if_false]
    | shutting_down =>
      have hn := sigInv_check cfg p.1 p.2 h
      refine ih hm2 _ hn hp ?_
      simp only [track, step, hnp, if_false, hs]
    | global_init o => simp [Op.isSignalOrCheck] at hop
    | global_cleanup => simp [Op.isSignalOrCheck] at hop
    | dup_shutdown_fd o => simp [Op.isSignalOrCheck] at hop

/-- C4 as stated fails: after 2147483648 successful `ccord_global_init` calls
and one `ccord_shutdown_async`, `ccord_shutting_down` returns true although
`init_counter` is not positive (the C `int` has wrapped to `INT_MIN`). -/
theorem C4_signaled_while_counter_negative :
    ccord_shutting_down (run posixCfg
      (List.replicate 2147483648 (Op.global_init goodOracle) ++ [Op.shutdown_async])
      initial) = true ∧
    ¬ (0 < (run posixCfg
      (List.replicate 2147483648 (Op.global_init goodOracle) ++ [Op.shutdown_async])
      initial).init_counter) := by
  rw [run_append, overflow_run]
  decide

/-- C4 (amended): in every state reached from the initial state by public
calls none of which is a `ccord_global_init` made at `init_counter = INT_MAX`,
`ccord_shutting_down` is true exactly when `init_counter > 0` and
`ccord_shutdown_async` has been called since the channel was last armed (the
second component of `track`).  In particular it is false right after any
`ccord_global_init` made with the counter at 0 (the first one or a re-init,
whatever was signalled before), false whenever the counter is 0, and once true
it stays true across any further `ccord_shutdown_async` and
`ccord_shutting_down` calls. -/
theorem C4_shutting_down_iff_signaled (cfg : Config) (ops : List Op)
    (hno : NoOverflow cfg ops) :
    (ops.foldl (track cfg) (initial, false)).1 = run cfg ops initial ∧
    ccord_shutting_down (run cfg ops initial) =
      (decide (0 < (run cfg ops initial).init_counter) &&
        (ops.foldl (track cfg) (initial, false)).2) ∧
    (∀ o, (run cfg ops initial).init_counter = 0 →
      ccord_shutting_down (ccord_global_init cfg o (run cfg ops initial)).1 = false) ∧
    ((run cfg ops initial).init_counter = 0 →
      ccord_shutting_down (run cfg ops initial) = false) ∧
    (ccord_shutting_down (run cfg ops initial) = true →
      ∀ more : List Op, (∀ op ∈ more, op.isSignalOrCheck = true) →
        ccord_shutting_down (run cfg more (run cfg ops initial)) = true) := by
  have hrun := track_run cfg ops (initial, false)
  have hinv := sigInv_run cfg ops hno
  have hpoll := sigInv_poll _ _ hinv
  rw [hrun] at hpoll
  refine ⟨hrun, hpoll, ?_, ?_, ?_⟩
  · intro o h0
    have h2 := sigInv_init cfg o _ _ hinv (by rw [hrun, h0]; decide)
    have h3 := sigInv_poll _ _ h2
    rw [track_fst, hrun] at h3
    simp only [step] at h3
    rw [h3]
    simp [track, h0]
  · intro h0
    rw [hpoll, h0]
    simp
  · intro ht more hm
    rw [hpoll] at ht
    simp only [Bool.and_eq_true, decide_eq_true_eq] at ht
    have := sigInv_stays cfg more hm _ hinv (by rw [hrun]; exact ht.1) ht.2
    rwa [hrun] at this

theorem noOverflow_nil (cfg : Config) : NoOverflow cfg [] := by
  intro k o hk
  simp at hk

theorem C4_shutting_down_iff_signaled_witness :
    ccord_shutting_down (run posixCfg [Op.global_init goodOracle] initial) = false ∧
    ccord_shutting_down (run posixCfg [Op.shutting_down, Op.shutdown_async]
      (run posixCfg [Op.global_init goodOracle, Op.shutdown_async] initial)) = true ∧
    ccord_shutting_down (ccord_global_init posixCfg goodOracle
      (run posixCfg [Op.global_init goodOracle, Op.shutdown_async, Op.global_cleanup]
        initial)).1 = false :=
  ⟨(C4_shutting_down_iff_signaled posixCfg [] (noOverflow_nil posixCfg)).2.2.1 goodOracle rfl,
   (C4_shutting_down_iff_signaled posixCfg [Op.global_init goodOracle, Op.shutdown_async]
      (by
        intro k o hk
        match k, hk with
        | 0, _ => decide
        | 1, hk => simp at hk
        | k + 2, hk => simp at hk)).2.2.2.2 (by decide)
      [Op.shutting_down, Op.shutdown_async] (by decide),
   (C4_shutting_down_iff_signaled posixCfg
      [Op.global_init goodOracle, Op.shutdown_async, Op.global_cleanup]
      (by
        intro k o hk
        match k, hk with
        | 0, _ => decide
        | 1, hk => simp at hk
        | 2, hk => simp at hk
        | k + 3, hk => simp at hk)).2.2.1 goodOracle
      (by decide)⟩

/-! ## The manager invariant and the interrupt handler (C7, C8) -/

theorem inv_initial : Inv initial := by decide

theorem inv_run (cfg : Config) (ops : List Op) (h : NoOverflow cfg ops) :
    Inv (run cfg ops initial) := by
  induction ops using List.reverseRecOn with
  | nil => exact inv_initial
  | append_singleton l op ih =>
    have hl := ih (noOverflow_init_segment cfg l op h)
    rw [run_append, run_cons, run_nil]
    refine inv_step cfg _ op hl (range_run cfg l initial (by decide)).2 ?_
    intro o ho
    subst ho
    exact noOverflow_last cfg l o h

/-- C7 as stated fails: the state reached from the initial state by 2147483648
successful `ccord_global_init` calls has a negative `init_counter` (the C `int`
has wrapped) and does not satisfy the invariant; and in a state that satisfies
the invariant with `init_counter = INT_MAX`, one more `ccord_global_init`
breaks it. -/
theorem C7_invariant_broken_by_overflow :
    ¬ (0 ≤ (run posixCfg (List.replicate 2147483648 (Op.global_init goodOracle))
      initial).init_counter) ∧
    ¬ Inv (run posixCfg (List.replicate 2147483648 (Op.global_init goodOracle)) initial) ∧
    Inv { constructed posixCfg goodOracle initial with init_counter := 2147483647 } ∧
    ¬ Inv (step posixCfg
      { constructed posixCfg goodOracle initial with init_counter := 2147483647 }
      (Op.global_init goodOracle)) := by
  rw [overflow_run]
  decide

/-- C7 (amended): the manager invariant `Inv` (counter not negative; both
shutdown handles valid and open, or both `-1`; valid exactly when the counter
is positive; curl and the worker pool set up exactly when the counter is
positive) holds initially; it holds in every state reached by public calls
none of which is a `ccord_global_init` made at `init_counter = INT_MAX`; every
public call (`ccord_global_init` with any outcome of its steps,
`ccord_global_cleanup`, `ccord_shutdown_async`, `ccord_shutting_down`,
`discord_dup_shutdown_fd`) preserves it from any state whose counter is at
most `INT_MAX`, except `ccord_global_init` at `init_counter = INT_MAX`; and
`ccord_global_cleanup` called with `init_counter = 0` returns the state
unchanged. -/
theorem C7_manager_invariant :
    Inv initial ∧
    (∀ (cfg : Config) (ops : List Op), NoOverflow cfg ops → Inv (run cfg ops initial)) ∧
    (∀ (cfg : Config) (s : State) (op : Op), Inv s → s.init_counter ≤ INT_MAX →
      (∀ o, op = Op.global_init o → s.init_counter ≠ INT_MAX) → Inv (step cfg s op)) ∧
    (∀ s : State, s.init_counter = 0 → ccord_global_cleanup s = s) :=
  ⟨inv_initial, inv_run, fun cfg s op h hr hno => inv_step cfg s op h hr hno, cleanup_zero⟩

theorem C7_manager_invariant_witness :
    Inv (step win32Cfg initial (Op.global_init workerFails)) ∧
    Inv (step posixCfg (step posixCfg initial (Op.global_init goodOracle)) Op.global_cleanup) ∧
    Inv (run posixCfg [Op.global_init goodOracle, Op.shutdown_async] initial) ∧
    ccord_global_cleanup initial = initial :=
  ⟨C7_manager_invariant.2.2.1 win32Cfg initial (Op.global_init workerFails) (by decide)
     (by decide) (fun _ _ => by decide),
   C7_manager_invariant.2.2.1 posixCfg (step posixCfg initial (Op.global_init goodOracle))
     Op.global_cleanup (by decide) (by decide) (fun _ h => by cases h),
   C7_manager_invariant.2.1 posixCfg [Op.global_init goodOracle, Op.shutdown_async]
     (by
       intro k o hk
       match k, hk with
       | 0, _ => decide
       | 1, hk => simp at hk
       | k + 2, hk => simp at hk),
   C7_manager_invariant.2.2.2 initial rfl⟩

theorem handler_init_first (cfg : Config) (o : InitOracle) (s : State)
    (h0 : s.init_counter = 0) :
    (ccord_global_init cfg o s).1.handler = (cfg.sigintcatch || s.handler) :=
  (init_first_frame cfg o s h0).2

theorem handler_step (cfg : Config) (s : State) (op : Op)
    (h : s.handler = true) : (step cfg s op).handler = true := by
  cases op with
  | global_init o =>
    by_cases h0 : s.init_counter = 0
    · simp only [step, handler_init_first cfg o s h0, h, Bool.or_true]
    · simp only [step, init_again cfg o s h0, h]
  | global_cleanup =>
    by_cases h0 : s.init_counter = 0
    · simp only [step, cleanup_zero s h0, h]
    by_cases h1 : wrap32 (s.init_counter - 1) = 0
    · simp only [step, cleanup_last_wrap s h0 h1, tornDown, h]
    · simp only [step, cleanup_many s h0 h1, h]
  | shutdown_async =>
    simp only [step, ccord_shutdown_async, sys_write]
    split <;> exact h
  | shutting_down => exact h
  | dup_shutdown_fd o =>
    have hF := (dup_frame cfg o s).1
    unfold Frame at hF
    simp only [step]
    rw [hF]; exact h

theorem armed_step (cfg : Config) (s : State) (op : Op)
    (h : (step cfg s op).init_counter ≠ 0) :
    s.init_counter ≠ 0 ∨ (s.init_counter = 0 ∧ ∃ o, op = Op.global_init o) := by
  by_cases h0 : s.init_counter = 0
  swap
  · exact Or.inl h0
  right
  refine ⟨h0, ?_⟩
  cases op with
  | global_init o => exact ⟨o, rfl⟩
  | global_cleanup =>
    simp only [step, cleanup_zero s h0] at h
    exact absurd h0 h
  | shutdown_async =>
    simp only [step, ccord_shutdown_async, sys_write] at h
    split at h <;> exact absurd h0 h
  | shutting_down => exact absurd h0 h
  | dup_shutdown_fd o =>
    have hF := (dup_frame cfg o s).1
    unfold Frame at hF
    simp only [step] at h
    rw [hF] at h
    exact absurd h0 h

theorem handler_while_armed (cfg : Config) (hc : cfg.sigintcatch = true) (ops : List Op) :
    ∀ s : State, (s.init_counter ≠ 0 → s.handler = true) →
      ((run cfg ops s).init_counter ≠ 0 → (run cfg ops s).handler = true) := by
  induction ops with
  | nil => intro s h; exact h
  | cons op ops ih =>
    intro s h
    rw [run_cons]
    refine ih _ ?_
    intro hp
    rcases armed_step cfg s op hp with h1 | ⟨h0, o, rfl⟩
    · exact handler_step cfg s op (h h1)
    · simp only [step, handler_init_first cfg o s h0, hc, Bool.true_or]

/-- C8 as stated fails: with `CCORD_SIGINTCATCH` compiled in, after one
successful `ccord_global_init` and the `ccord_global_cleanup` that drops the
counter to 0 the handler is still installed although `init_counter = 0`; the
same holds after a `ccord_global_init` that fails and rolls back. -/
theorem C8_handler_not_uninstalled :
    ¬ ((run win32Cfg [Op.global_init goodOracle, Op.global_cleanup] initial).handler = true ↔
        0 < (run win32Cfg [Op.global_init goodOracle, Op.global_cleanup] initial).init_counter) ∧
    ¬ ((ccord_global_init win32Cfg workerFails initial).1.handler = true ↔
        0 < (ccord_global_init win32Cfg workerFails initial).1.init_counter) := by
  decide

/-- C8 (amended): with `CCORD_SIGINTCATCH` compiled in, in every state reached
from the initial state the handler is installed whenever `init_counter > 0`;
every `ccord_global_init` made with the counter at 0 leaves it installed,
whether the call succeeds or rolls back; and no public call uninstalls it. -/
theorem C8_handler_installed_while_armed (cfg : Config) (hc : cfg.sigintcatch = true)
    (ops : List Op) :
    (0 < (run cfg ops initial).init_counter → (run cfg ops initial).handler = true) ∧
    (∀ o, (run cfg ops initial).init_counter = 0 →
      (ccord_global_init cfg o (run cfg ops initial)).1.handler = true) ∧
    (∀ op, (run cfg ops initial).handler = true →
      (step cfg (run cfg ops initial) op).handler = true) := by
  refine ⟨fun hp => handler_while_armed cfg hc ops initial (fun h => absurd rfl h)
    (by omega), ?_, ?_⟩
  · intro o h0
    rw [handler_init_first cfg o _ h0, hc]; rfl
  · intro op h
    exact handler_step cfg _ op h

theorem C8_handler_installed_while_armed_witness :
    (run win32Cfg [Op.global_init goodOracle] initial).handler = true ∧
    (ccord_global_init win32Cfg workerFails (run win32Cfg [] initial)).1.handler = true ∧
    (step win32Cfg (run win32Cfg [Op.global_init goodOracle] initial)
      Op.global_cleanup).handler = true :=
  ⟨(C8_handler_installed_while_armed win32Cfg rfl [Op.global_init goodOracle]).1 (by decide),
   (C8_handler_installed_while_armed win32Cfg rfl []).2.1 workerFails rfl,
   (C8_handler_installed_while_armed win32Cfg rfl [Op.global_init goodOracle]).2.2
     Op.global_cleanup (by decide)⟩

/-! ## The channel shim, handle duplication, and teardown order (C9, C10, C5, C6) -/

/-- C9: for every outcome of the system calls of the loopback-socket
`compat_socketpair`: if some step fails it returns `-1`, leaves `fds` as it was
and leaves the environment exactly as before the call (so every socket it
created has been closed again); if every step succeeds it returns `0`, stores
the accepted socket in `fds[0]` and the connecting socket in `fds[1]`, the
listening socket is no longer open, and the open handles are those open before
the call plus exactly these two, which are distinct, different from `-1` and
were not open before. -/
theorem C9_socketpair_all_or_nothing (s : State) (fds : Int × Int) (o : SockOracle) :
    (win32_steps_ok s.tab o = false ∧ compat_socketpair_win32 s fds o = (s, -1, fds)) ∨
    (win32_steps_ok s.tab o = true ∧
      (compat_socketpair_win32 s fds o).2.1 = 0 ∧
      (compat_socketpair_win32 s fds o).2.2 = (o.server, o.client) ∧
      isOpen (compat_socketpair_win32 s fds o).1.tab o.listener = false ∧
      (compat_socketpair_win32 s fds o).1.tab =
        ⟨o.server, Role.observe s.bytes.length⟩ :: ⟨o.client, Role.notify s.bytes.length⟩ ::
          s.tab ∧
      o.server ≠ o.client ∧ o.server ≠ -1 ∧ o.client ≠ -1 ∧
      isOpen s.tab o.server = false ∧ isOpen s.tab o.client = false) := by
  rw [compat_socketpair_win32_eq]
  by_cases h : win32_steps_ok s.tab o = true
  · right
    have hh := h
    simp only [win32_steps_ok, fresh, isOpen_cons, Bool.and_eq_true, Bool.not_eq_true',
      Bool.or_eq_false_iff, bne_iff_ne, ne_eq, beq_eq_false_iff_ne] at hh
    obtain ⟨⟨⟨⟨⟨⟨⟨hl, hlo⟩, _⟩, _⟩, _⟩, ⟨hc, hcl, hco⟩⟩, _⟩, ⟨hs, hsc, hsl, hso⟩⟩ := hh
    rw [if_pos h]
    refine ⟨h, rfl, rfl, ?_, rfl, ?_, hs, hc, hso, hco⟩
    · simp only [withChannel, isOpen_cons, hlo, Bool.or_false, Bool.or_eq_false_iff,
        beq_eq_false_iff_ne, ne_eq]
      exact ⟨fun e => hsl e.symm, fun e => hcl e.symm⟩
    · exact fun e => hsc e.symm
  · left
    have hf : win32_steps_ok s.tab o = false := by simpa using h
    rw [if_neg h]
    exact ⟨hf, rfl⟩

theorem shutting_down_congr (s r : State) (h1 : r.shutdown_fds = s.shutdown_fds)
    (h2 : r.bytes = s.bytes)
    (h3 : s.shutdown_fds.1 ≠ -1 → roleOf r.tab s.shutdown_fds.1 = roleOf s.tab s.shutdown_fds.1) :
    ccord_shutting_down r = ccord_shutting_down s := by
  unfold ccord_shutting_down sys_poll_in
  rw [h1, h2]
  by_cases e : s.shutdown_fds.1 = -1
  · simp [e]
  · simp only [beq_iff_eq, e, if_false, h3 e]

theorem mem_of_mem_callsSince (s r : State) (e : Ev) (h : e ∈ callsSince s r) : e ∈ r.trace :=
  List.mem_of_mem_drop h

/-- C10: `discord_dup_shutdown_fd` called with `shutdown_fds[0] == -1` returns
`-1` and leaves the state, log included, untouched.  Otherwise its result is
decided by the outcome of its system calls (`dup_steps_ok`: a duplicate is
obtained, `FIOCLEX` succeeds where compiled in, the non-blocking call
succeeds).  If one of them fails the call returns `-1` and leaves the
descriptor table as it was, and when a duplicate had been obtained its `close`
is among the calls made.  If all succeed the call returns the duplicate: a
handle other than `-1` that was not open before, is open afterwards, is
attached to what `shutdown_fds[0]` is attached to, and for which a successful
non-blocking mode-setting call was made; nothing is closed.  Every call leaves
`init_counter`, `shutdown_fds`, the channels' unread bytes and the answer of
`ccord_shutting_down` as they were. -/
theorem C10_dup_shutdown_fd (cfg : Config) (o : DupOracle) (s : State) :
    (s.shutdown_fds.1 = -1 → discord_dup_shutdown_fd cfg o s = (s, -1)) ∧
    (s.shutdown_fds.1 ≠ -1 → dup_steps_ok cfg s o = false →
      (discord_dup_shutdown_fd cfg o s).2 = -1 ∧
      (discord_dup_shutdown_fd cfg o s).1.tab = s.tab ∧
      (dup_created cfg s o = true →
        Ev.close o.handle ∈ callsSince s (discord_dup_shutdown_fd cfg o s).1)) ∧
    (s.shutdown_fds.1 ≠ -1 → dup_steps_ok cfg s o = true →
      (discord_dup_shutdown_fd cfg o s).2 = o.handle ∧
      (discord_dup_shutdown_fd cfg o s).2 ≠ -1 ∧
      (discord_dup_shutdown_fd cfg o s).1.tab =
        ⟨o.handle, roleOf s.tab s.shutdown_fds.1⟩ :: s.tab ∧
      Ev.set_nonblocking o.handle 0 ∈ callsSince s (discord_dup_shutdown_fd cfg o s).1 ∧
      (∀ h, Ev.close h ∉ callsSince s (discord_dup_shutdown_fd cfg o s).1)) ∧
    ((discord_dup_shutdown_fd cfg o s).2 = -1 →
      (discord_dup_shutdown_fd cfg o s).1.tab = s.tab) ∧
    (discord_dup_shutdown_fd cfg o s).1.init_counter = s.init_counter ∧
    (discord_dup_shutdown_fd cfg o s).1.shutdown_fds = s.shutdown_fds ∧
    (discord_dup_shutdown_fd cfg o s).1.bytes = s.bytes ∧
    ccord_shutting_down (discord_dup_shutdown_fd cfg o s).1 = ccord_shutting_down s ∧
    ((discord_dup_shutdown_fd cfg o s).2 ≠ -1 →
      isOpen s.tab (discord_dup_shutdown_fd cfg o s).2 = false ∧
      isOpen (discord_dup_shutdown_fd cfg o s).1.tab (discord_dup_shutdown_fd cfg o s).2 = true ∧
      roleOf (discord_dup_shutdown_fd cfg o s).1.tab (discord_dup_shutdown_fd cfg o s).2 =
        roleOf s.tab s.shutdown_fds.1 ∧
      Ev.set_nonblocking (discord_dup_shutdown_fd cfg o s).2 0 ∈
        (discord_dup_shutdown_fd cfg o s).1.trace) := by
  by_cases h0 : s.shutdown_fds.1 = -1
  · rw [dup_unarmed cfg o s h0]
    exact ⟨fun _ => rfl, fun h => absurd h0 h, fun h => absurd h0 h, fun _ => rfl, rfl, rfl, rfl,
      rfl, fun h => absurd rfl h⟩
  rcases dup_cases cfg o s h0 with ⟨hok, hr, ht, hcl, hF⟩ | ⟨hok, hr, hfr, hop, ht, hnb, hnc, hF⟩
  · have e1 : (discord_dup_shutdown_fd cfg o s).1.init_counter = s.init_counter := by
      unfold Frame at hF; rw [hF]
    have e2 : (discord_dup_shutdown_fd cfg o s).1.shutdown_fds = s.shutdown_fds := by
      unfold Frame at hF; rw [hF]
    have e3 : (discord_dup_shutdown_fd cfg o s).1.bytes = s.bytes := by
      unfold Frame at hF; rw [hF]
    refine ⟨fun h => absurd h h0, fun _ _ => ⟨hr, ht, hcl⟩, fun _ h => ?_, fun _ => ht, e1, e2,
      e3, ?_, fun h => absurd hr h⟩
    · rw [hok] at h; cases h
    · exact shutting_down_congr s _ e2 e3 (fun _ => by rw [ht])
  · have e1 : (discord_dup_shutdown_fd cfg o s).1.init_counter = s.init_counter := by
      unfold Frame at hF; rw [hF]
    have e2 : (discord_dup_shutdown_fd cfg o s).1.shutdown_fds = s.shutdown_fds := by
      unfold Frame at hF; rw [hF]
    have e3 : (discord_dup_shutdown_fd cfg o s).1.bytes = s.bytes := by
      unfold Frame at hF; rw [hF]
    have hfr2 : o.handle ≠ -1 ∧ isOpen s.tab o.handle = false := by
      simpa [fresh] using hfr
    have hpne : o.handle ≠ s.shutdown_fds.1 := by
      intro e
      rw [e, hop] at hfr2
      exact absurd hfr2.2 (by simp)
    refine ⟨fun h => absurd h h0, fun _ h => ?_, fun _ _ => ⟨hr, by rw [hr]; exact hfr2.1, ht,
      hnb, hnc⟩, fun h => absurd (hr ▸ h) hfr2.1, e1, e2, e3, ?_, fun _ => ?_⟩
    · rw [hok] at h; cases h
    · refine shutting_down_congr s _ e2 e3 (fun _ => ?_)
      rw [ht, roleOf_cons]
      simp [hpne]
    · rw [hr, ht]
      exact ⟨hfr2.2, by simp [isOpen_cons], by simp [roleOf_cons],
        mem_of_mem_callsSince _ _ _ (by rw [← hr]; rw [hr]; exact hnb)⟩

theorem C10_dup_shutdown_fd_witness :
    discord_dup_shutdown_fd posixCfg ⟨0, 7, 0, 0⟩ initial = (initial, -1) ∧
    (discord_dup_shutdown_fd posixCfg ⟨0, 7, 1, 0⟩
      (run posixCfg [Op.global_init goodOracle] initial)).2 = -1 ∧
    (discord_dup_shutdown_fd win32Cfg ⟨0, 7, 0, 0⟩
      (run win32Cfg [Op.global_init goodOracle] initial)).2 = 7 ∧
    isOpen (discord_dup_shutdown_fd win32Cfg ⟨0, 7, 0, 0⟩
      (run win32Cfg [Op.global_init goodOracle] initial)).1.tab
      (discord_dup_shutdown_fd win32Cfg ⟨0, 7, 0, 0⟩
        (run win32Cfg [Op.global_init goodOracle] initial)).2 = true :=
  ⟨(C10_dup_shutdown_fd posixCfg ⟨0, 7, 0, 0⟩ initial).1 rfl,
   ((C10_dup_shutdown_fd posixCfg ⟨0, 7, 1, 0⟩
      (run posixCfg [Op.global_init goodOracle] initial)).2.1 (by decide) (by decide)).1,
   ((C10_dup_shutdown_fd win32Cfg ⟨0, 7, 0, 0⟩
      (run win32Cfg [Op.global_init goodOracle] initial)).2.2.1 (by decide) (by decide)).1,
   ((C10_dup_shutdown_fd win32Cfg ⟨0, 7, 0, 0⟩
      (run win32Cfg [Op.global_init goodOracle] initial)).2.2.2.2.2.2.2.2 (by decide)).2.1⟩

/-- C5 fails on the code: the `ccord_global_cleanup` call that drops the counter
to 0 calls `curl_global_cleanup` first, then
`discord_worker_global_cleanup`, and closes the two shutdown handles last, which
is the construction order (curl, worker pool, channel) and not its reverse.
The rollback inside `ccord_global_init` does use the reverse order. -/
theorem C5_cleanup_runs_in_construction_order :
    callsSince initial (run posixCfg [Op.global_init goodOracle] initial) =
      [Ev.curl_global_init 0, Ev.discord_worker_global_init 0, Ev.compat_socketpair 0,
       Ev.set_nonblocking 3 0, Ev.set_nonblocking 4 0] ∧
    callsSince (run posixCfg [Op.global_init goodOracle] initial)
        (run posixCfg [Op.global_init goodOracle, Op.global_cleanup] initial) =
      [Ev.curl_global_cleanup, Ev.discord_worker_global_cleanup, Ev.close 3, Ev.close 4] ∧
    callsSince initial
        (ccord_global_init posixCfg { goodOracle with nb1 := 1 } initial).1 =
      [Ev.curl_global_init 0, Ev.discord_worker_global_init 0, Ev.compat_socketpair 0,
       Ev.set_nonblocking 3 0, Ev.set_nonblocking 4 1,
       Ev.close 3, Ev.close 4, Ev.discord_worker_global_cleanup, Ev.curl_global_cleanup] := by
  decide

/-- C6 fails on the code: when `curl_global_init` fails nothing had completed,
yet the rollback calls `curl_global_cleanup`; when
`discord_worker_global_init` fails only curl had completed, yet the rollback
calls `discord_worker_global_cleanup` before `curl_global_cleanup`.  The
cleanup of the failing step itself is issued. -/
theorem C6_rollback_cleans_failed_step :
    (ccord_global_init posixCfg curlFails initial).2 = CCORDcode.CCORD_GLOBAL_INIT ∧
    callsSince initial (ccord_global_init posixCfg curlFails initial).1 =
      [Ev.curl_global_init 1, Ev.curl_global_cleanup] ∧
    (ccord_global_init posixCfg workerFails initial).2 = CCORDcode.CCORD_GLOBAL_INIT ∧
    callsSince initial (ccord_global_init posixCfg workerFails initial).1 =
      [Ev.curl_global_init 0, Ev.discord_worker_global_init 1,
       Ev.discord_worker_global_cleanup, Ev.curl_global_cleanup] := by
  decide

end Concord
